import Mathlib

/-!
Verification development for the whisper audio plugin
(silence-removal audio engine and transcription pipeline).

The definitions below are a shallow embedding of the TypeScript source:

* `src/AudioRecorder.ts` — `removeSilence` (silence analysis in both
  "edges-only" and "all-segments" mode, buffer reconstruction) and
  `encodeWAV` (16-bit PCM WAV serialization of an `AudioBuffer`).
* `src/AudioHandler.ts` — `sendAudioData` (the transcription pipeline:
  transcription, post-processing, title generation, note assembly).
* `src/utils.ts` — `getBaseFileName`.

Modelling conventions:

* Float32 PCM samples are modelled as rationals (`ℚ`); every arithmetic
  operation the engine performs on them (abs, compare, clamp, scale,
  truncate) is exact at the inputs the theorems use.
* JavaScript `DataView` writes are modelled as positional updates
  (`List.set`) on a zero-initialized byte list, exactly mirroring the
  write sequence of `encodeWAV`.
* The linear amplitude threshold `Math.pow(10, silenceThreshold / 20)`
  is taken as an input parameter (`threshold`), since the dB→linear
  conversion itself is irrelevant to the segment logic.
* Network calls and vault I/O are oracles (`Except String _`): the
  environment decides whether each dispatched request succeeds, and the
  pipeline model records every dispatched request and user notice as an
  event, in program order.
-/

namespace Whisper

/-! ## Silence analysis (AudioRecorder.removeSilence, all-segments mode)

Source, `removeSilence`, branch `silenceRemoveAll` (AudioRecorder.ts
lines 83–128): a single forward scan over `inputData` maintaining
`isInSilence`, `silenceStart`, `nonSilenceStart`, pushing segments
`{start, end, isSilence}`; a final segment is pushed after the loop.
`end` is a Lean keyword, so the field is named `stop`. -/

structure Segment where
  start : ℕ
  stop : ℕ
  isSilence : Bool
deriving DecidableEq, Repr

structure ScanState where
  segments : List Segment
  isInSilence : Bool
  silenceStart : ℕ
  nonSilenceStart : ℕ
deriving Repr

/-- One iteration of the `for (let i = 0; i < inputData.length; i++)`
loop body (AudioRecorder.ts lines 93–112) at index `i` for sample `v`. -/
def scanStep (threshold minSilenceSamples : ℚ) (st : ScanState) (i : ℕ) (v : ℚ) :
    ScanState :=
  if st.isInSilence then
    if |v| > threshold then
      { segments :=
          if (i : ℚ) - (st.silenceStart : ℚ) ≥ minSilenceSamples then
            st.segments ++ [⟨st.silenceStart, i, true⟩]
          else st.segments
        isInSilence := false
        silenceStart := st.silenceStart
        nonSilenceStart := i }
    else st
  else
    if |v| ≤ threshold then
      { segments :=
          if st.nonSilenceStart < i then
            st.segments ++ [⟨st.nonSilenceStart, i, false⟩]
          else st.segments
        isInSilence := true
        silenceStart := i
        nonSilenceStart := st.nonSilenceStart }
    else st

/-- The whole loop, scanning `data` with `i` as the index of the first
element of `data` in the original buffer. -/
def scanSegments (threshold minSilenceSamples : ℚ) :
    ScanState → ℕ → List ℚ → ScanState
  | st, _, [] => st
  | st, i, v :: rest =>
      scanSegments threshold minSilenceSamples
        (scanStep threshold minSilenceSamples st i v) (i + 1) rest

/-- The post-loop push (AudioRecorder.ts lines 114–119): "Add final
segment". -/
def finalizeSegments (st : ScanState) (len : ℕ) : List Segment :=
  if !st.isInSilence ∧ st.nonSilenceStart < len then
    st.segments ++ [⟨st.nonSilenceStart, len, false⟩]
  else if st.isInSilence ∧ st.silenceStart < len then
    st.segments ++ [⟨st.silenceStart, len, true⟩]
  else st.segments

/-- All-segments silence analysis: the full segment list produced by
`removeSilence` in `silenceRemoveAll` mode for channel-0 data `data`. -/
def findAllSegments (data : List ℚ) (threshold minSilenceSamples : ℚ) :
    List Segment :=
  finalizeSegments
    (scanSegments threshold minSilenceSamples ⟨[], true, 0, 0⟩ 0 data)
    data.length

/-- The contiguity/exhaustiveness property asserted by the spec for the
all-segments output: adjacent segments share a boundary, the first
segment starts at 0 and the last ends at the buffer length. -/
def ContiguousExhaustive (segs : List Segment) (len : ℕ) : Prop :=
  (∀ p ∈ segs.zip segs.tail, Segment.stop p.1 = Segment.start p.2) ∧
  (∀ s ∈ segs.head?, Segment.start s = 0) ∧
  (∀ s ∈ segs.getLast?, Segment.stop s = len) ∧
  (len ≠ 0 → segs ≠ [])

instance (segs : List Segment) (len : ℕ) :
    Decidable (ContiguousExhaustive segs len) :=
  inferInstanceAs (Decidable (_ ∧ _ ∧ _ ∧ _))

/-! ### Invariants of the all-segments scan -/

/-- The marker the scan is currently extending a segment from. -/
def ScanState.marker (st : ScanState) : ℕ :=
  if st.isInSilence then st.silenceStart else st.nonSilenceStart

/-- Invariant maintained by the scan loop after consuming `k` samples. -/
structure ScanInv (minSilenceSamples : ℚ) (k : ℕ) (st : ScanState) : Prop where
  ordered : st.segments.Pairwise (fun a b => a.stop ≤ b.start)
  bounds : ∀ s ∈ st.segments, s.start ≤ s.stop ∧ s.stop ≤ k
  marker_le : st.marker ≤ k
  marker_pos : st.marker = 0 ∨ st.marker < k
  ends_le : ∀ s ∈ st.segments, s.stop ≤ st.marker
  silence_min : ∀ s ∈ st.segments, s.isSilence = true →
    minSilenceSamples ≤ (s.stop : ℚ) - (s.start : ℚ)

/-! ## Edges-only silence analysis (AudioRecorder.ts lines 167–191)

`startIndex` scans forward over `[0, len)` until the first sample whose
absolute value exceeds the threshold (ending at `len` when none does);
`endIndex` scans backward from `len - 1` while `endIndex > startIndex`
and the sample does not exceed the threshold. Out-of-range reads
(`inputData[i]` for `i` past the channel array) are `undefined` in JS,
and `Math.abs(undefined) > threshold` is false; `getD _ 0` models that
for the well-formed buffers the theorems quantify over. -/

def startScanAux (data : List ℚ) (threshold : ℚ) : ℕ → ℕ → ℕ
  | i, 0 => i
  | i, fuel + 1 =>
      if |data.getD i 0| > threshold then i
      else startScanAux data threshold (i + 1) fuel

/-- The forward scan: first index in `[0, len)` whose sample exceeds the
threshold, or `len` when none does. -/
def startScan (data : List ℚ) (threshold : ℚ) (len : ℕ) : ℕ :=
  startScanAux data threshold 0 len

def endScanAux (data : List ℚ) (threshold : ℚ) (startIndex : ℕ) : ℕ → ℕ
  | 0 => 0
  | e + 1 =>
      if e + 1 ≤ startIndex then e + 1
      else if |data.getD (e + 1) 0| > threshold then e + 1
      else endScanAux data threshold startIndex e

/-- The backward scan; `-1` for an empty buffer, mirroring
`endIndex = audioBuffer.length - 1` on JS numbers. -/
def endScan (data : List ℚ) (threshold : ℚ) (startIndex len : ℕ) : ℤ :=
  if len = 0 then -1 else endScanAux data threshold startIndex (len - 1)

/-! ## Audio buffers and WAV encoding (AudioRecorder.encodeWAV) -/

/-- Web Audio `AudioBuffer`: per-channel Float32 data plus declared
frame count, channel count and sample rate. `getChannelData` past the
stored channels yields `[]` (reads on it then default to `0`, matching
the JS `undefined`→`NaN`→`0` path through `setInt16`). -/
structure AudioBuffer where
  numberOfChannels : ℕ
  length : ℕ
  sampleRate : ℕ
  channels : List (List ℚ)
deriving DecidableEq, Repr

def AudioBuffer.getChannelData (b : AudioBuffer) (ch : ℕ) : List ℚ :=
  b.channels.getD ch []

/-- `Array.prototype.slice(start, stop)` on a Float32 array (indices
already non-negative here): clamps to the array length. -/
def jsSlice (l : List ℚ) (start stop : ℕ) : List ℚ :=
  (l.take stop).drop start

/-- JS `DataView.setUint8` on a byte list. -/
def setU8 (l : List ℕ) (o v : ℕ) : List ℕ := l.set o (v % 256)

/-- JS `DataView.setUint16(o, v, true)` (little-endian). -/
def setU16 (l : List ℕ) (o v : ℕ) : List ℕ :=
  (l.set o (v % 256)).set (o + 1) (v / 256 % 256)

/-- JS `DataView.setUint32(o, v, true)` (little-endian). -/
def setU32 (l : List ℕ) (o v : ℕ) : List ℕ :=
  ((((l.set o (v % 256)).set (o + 1) (v / 256 % 256)).set
    (o + 2) (v / 65536 % 256)).set (o + 3) (v / 16777216 % 256))

/-- `writeString` (AudioRecorder.ts lines 361–365): one `setUint8` of
`charCodeAt(i)` per character, offsets increasing from `o`. -/
def writeStringAt (l : List ℕ) (o : ℕ) : List Char → List ℕ
  | [] => l
  | c :: cs => writeStringAt (setU8 l o c.toNat) (o + 1) cs

/-- Truncation toward zero, the conversion JS `ToInt16` applies to the
float argument of `setInt16` (`Int.div` truncates toward zero and
`q.den > 0`). -/
def truncQ (q : ℚ) : ℤ := Int.tdiv q.num (q.den : ℤ)

/-- Two's-complement 16-bit wrap of the truncated value, as stored. -/
def toUint16 (z : ℤ) : ℕ := (Int.emod z 65536).toNat

/-- `Math.max(-1, Math.min(1, sample))`. -/
def clamp16 (q : ℚ) : ℚ := max (-1) (min 1 q)

/-- `clamped < 0 ? clamped * 0x8000 : clamped * 0x7FFF`. -/
def scaleSample (q : ℚ) : ℚ := if q < 0 then q * 32768 else q * 32767

/-- JS `view.setInt16(o, q, true)` for a float expression `q`. -/
def setI16 (l : List ℕ) (o : ℕ) (q : ℚ) : List ℕ :=
  setU16 l o (toUint16 (truncQ q))

/-- The PCM write loop of `encodeWAV` (lines 347–356): frame-major,
channel-interleaved 16-bit writes starting at offset 44. -/
def writePCM (channelData : List (List ℚ)) (numChannels frames : ℕ)
    (l : List ℕ) : List ℕ :=
  ((List.range frames).foldl (fun acc i =>
    (List.range numChannels).foldl (fun acc2 ch =>
      (setI16 acc2.1 acc2.2 (scaleSample (clamp16 ((channelData.getD ch []).getD i 0))),
        acc2.2 + 2)) acc)
    (l, 44)).1

/-- `encodeWAV` (AudioRecorder.ts lines 308–359): allocate
`44 + length` zero bytes and perform the exact write sequence. -/
def encodeWAV (b : AudioBuffer) : List ℕ :=
  let numChannels := b.numberOfChannels
  let sampleRate := b.sampleRate
  let channelData := (List.range numChannels).map b.getChannelData
  let dataLen := b.length * numChannels * 2
  let v0 := List.replicate (44 + dataLen) 0
  let v1 := writeStringAt v0 0 "RIFF".toList
  let v2 := setU32 v1 4 (36 + dataLen)
  let v3 := writeStringAt v2 8 "WAVE".toList
  let v4 := writeStringAt v3 12 "fmt ".toList
  let v5 := setU32 v4 16 16
  let v6 := setU16 v5 20 1
  let v7 := setU16 v6 22 numChannels
  let v8 := setU32 v7 24 sampleRate
  let v9 := setU32 v8 28 (sampleRate * numChannels * 16 / 8)
  let v10 := setU16 v9 32 (numChannels * 16 / 8)
  let v11 := setU16 v10 34 16
  let v12 := writeStringAt v11 36 "data".toList
  let v13 := setU32 v12 40 dataLen
  writePCM channelData numChannels b.length v13

/-! ### Spec-side WAV layout (section 4.2 of the spec), for refinement -/

def u16le (v : ℕ) : List ℕ := [v % 256, v / 256 % 256]

def u32le (v : ℕ) : List ℕ :=
  [v % 256, v / 256 % 256, v / 65536 % 256, v / 16777216 % 256]

/-- One encoded sample: clamp, scale asymmetrically, truncate, wrap,
little-endian. -/
def sampleBytesLE (q : ℚ) : List ℕ :=
  u16le (toUint16 (truncQ (scaleSample (clamp16 q))))

/-- The interleaved data section described by the spec. -/
def wavSpecData (channelData : List (List ℚ)) (numChannels frames : ℕ) :
    List ℕ :=
  ((List.range frames).map (fun i =>
    ((List.range numChannels).map (fun ch =>
      sampleBytesLE ((channelData.getD ch []).getD i 0))).flatten)).flatten

/-- The byte layout the spec asserts: 44-byte RIFF/WAVE header followed
by the interleaved 16-bit data. -/
def wavSpecBytes (b : AudioBuffer) : List ℕ :=
  let numChannels := b.numberOfChannels
  let dataLen := b.length * numChannels * 2
  ("RIFF".toList.map Char.toNat) ++ u32le (36 + dataLen) ++
  ("WAVE".toList.map Char.toNat) ++
  ("fmt ".toList.map Char.toNat) ++ u32le 16 ++ u16le 1 ++
  u16le numChannels ++ u32le b.sampleRate ++
  u32le (b.sampleRate * numChannels * 2) ++ u16le (numChannels * 2) ++
  u16le 16 ++
  ("data".toList.map Char.toNat) ++ u32le dataLen ++
  wavSpecData ((List.range numChannels).map b.getChannelData) numChannels b.length

/-! ## removeSilence (AudioRecorder.ts lines 41–217) -/

/-- The configuration fields `removeSilence` reads. `thresholdLinear`
stands for the computed `Math.pow(10, settings.silenceThreshold / 20)`;
`useSilenceRemoval` is the (legacy-named) toggle it is gated on. -/
structure SilenceSettings where
  useSilenceRemoval : Bool
  silenceRemoveAll : Bool
  silenceDuration : ℚ
  thresholdLinear : ℚ
deriving Repr

/-- Outcome of `audioCtx.decodeAudioData` (any throw from AudioContext
construction or decoding lands in the surrounding `catch`). -/
inductive DecodeResult
  | fail
  | ok (b : AudioBuffer)
deriving Repr

/-- `Float32Array.prototype.set(src, pos)` into `dst`. -/
def copyInto (dst : List ℚ) (pos : ℕ) (src : List ℚ) : List ℚ :=
  dst.take pos ++ src ++ dst.drop (pos + src.length)

/-- Per-channel reconstruction in all-segments mode (lines 138–158):
a zero `Float32Array(totalLength)`, silence segments contribute
`shortSilenceSamples` zero samples (writing zeros over zeros), voiced
segments are copied verbatim via `slice`. -/
def reconstructChannel (chData : List ℚ) (shortSilenceSamples totalLength : ℕ)
    (segments : List Segment) : List ℚ :=
  (segments.foldl (fun (acc : List ℚ × ℕ) seg =>
    if seg.isSilence then (acc.1, acc.2 + shortSilenceSamples)
    else
      let segmentData := jsSlice chData seg.start seg.stop
      (copyInto acc.1 acc.2 segmentData, acc.2 + segmentData.length))
    (List.replicate totalLength 0, 0)).1

/-- `copyToChannel` into a fresh zero buffer of `len` frames: copies up
to `len` samples, the rest stays zero. -/
def copyToChannel (src : List ℚ) (len : ℕ) : List ℚ :=
  src.take len ++ List.replicate (len - src.length) 0

/-- `removeSilence`: returns the input blob when the feature is off,
when decoding throws, or on the degenerate results; otherwise the
re-encoded WAV bytes. -/
def removeSilence (s : SilenceSettings) (decoded : DecodeResult)
    (inputBlob : List ℕ) : List ℕ :=
  if ¬ s.useSilenceRemoval then inputBlob
  else
    match decoded with
    | .fail => inputBlob
    | .ok buffer =>
      let threshold := s.thresholdLinear
      let inputData := buffer.getChannelData 0
      if s.silenceRemoveAll then
        let minSilenceSamples := s.silenceDuration * (buffer.sampleRate : ℚ)
        -- Math.floor(0.5 * audioBuffer.sampleRate)
        let shortSilenceSamples := buffer.sampleRate / 2
        let segments := findAllSegments inputData threshold minSilenceSamples
        let totalLength := segments.foldl
          (fun sum seg =>
            sum + if seg.isSilence then shortSilenceSamples else seg.stop - seg.start) 0
        if totalLength = 0 then inputBlob
        else
          encodeWAV
            { numberOfChannels := buffer.numberOfChannels
              length := totalLength
              sampleRate := buffer.sampleRate
              channels := (List.range buffer.numberOfChannels).map (fun ch =>
                reconstructChannel (buffer.getChannelData ch) shortSilenceSamples
                  totalLength segments) }
      else
        let startIndex := startScan inputData threshold buffer.length
        let endIndex := endScan inputData threshold startIndex buffer.length
        if (startIndex : ℤ) ≥ endIndex then inputBlob
        else
          let trimmedLength := endIndex.toNat - startIndex + 1
          encodeWAV
            { numberOfChannels := buffer.numberOfChannels
              length := trimmedLength
              sampleRate := buffer.sampleRate
              channels := (List.range buffer.numberOfChannels).map (fun ch =>
                copyToChannel
                  (jsSlice (buffer.getChannelData ch) startIndex (endIndex.toNat + 1))
                  trimmedLength) }

/-! ## String utilities (utils.ts and AudioHandler.ts) -/

/-- JS `String.prototype.lastIndexOf` for a single character: index of
the last occurrence, `-1` when absent. -/
def jsLastIndexOf (cs : List Char) (c : Char) : ℤ :=
  match cs.reverse.findIdx? (· == c) with
  | none => -1
  | some k => (cs.length : ℤ) - 1 - (k : ℤ)

/-- JS `String.prototype.substring(a, b)`: clamps both arguments to
`[0, length]` and swaps them when `a > b`. -/
def jsSubstring (cs : List Char) (a b : ℤ) : List Char :=
  (cs.take (max (max 0 (min a (cs.length : ℤ))).toNat
    (max 0 (min b (cs.length : ℤ))).toNat)).drop
    (min (max 0 (min a (cs.length : ℤ))).toNat
      (max 0 (min b (cs.length : ℤ))).toNat)

/-- `getBaseFileName` (utils.ts lines 1–9). -/
def getBaseFileName (filePath : List Char) : List Char :=
  let fileName := jsSubstring filePath (jsLastIndexOf filePath '/' + 1)
    filePath.length
  jsSubstring fileName 0 (jsLastIndexOf fileName '.')

def getBaseFileNameS (s : String) : String :=
  String.mk (getBaseFileName s.toList)

/-- Spec-side description: the final path component (the whole string
when there is no slash). -/
def lastComponent (cs : List Char) : List Char :=
  (cs.reverse.takeWhile (fun x => x != '/')).reverse

/-- Spec-side description of `getBaseFileName`: the final component
with everything from its last dot onward removed, `[]` when the final
component has no dot. -/
def specBaseFileName (cs : List Char) : List Char :=
  let comp := lastComponent cs
  if '.' ∈ comp then ((comp.reverse.dropWhile (fun x => x != '.')).tail).reverse
  else []

/-- JS `String.prototype.trim` whitespace class, restricted to the
ASCII whitespace characters that can occur here. -/
def isJsWhitespace (c : Char) : Bool :=
  c == ' ' || c == '\t' || c == '\n' || c == '\r' ||
  c == '\x0b' || c == '\x0c'

def jsTrim (cs : List Char) : List Char :=
  ((cs.dropWhile isJsWhitespace).reverse.dropWhile isJsWhitespace).reverse

def jsTrimS (s : String) : String := String.mk (jsTrim s.toList)

/-- The character class of `replace(/[/\\?%*:|"<>]/g, "-")`. -/
def isForbiddenFileChar (c : Char) : Bool :=
  c == '/' || c == '\\' || c == '?' || c == '%' || c == '*' ||
  c == ':' || c == '|' || c == '"' || c == '<' || c == '>'

/-- Title sanitization (AudioHandler.ts lines 473–476): replace the
forbidden class with `-`, then newlines with spaces, then trim. -/
def sanitizeTitle (t : String) : String :=
  String.mk (jsTrim ((t.toList.map (fun c => if isForbiddenFileChar c then '-' else c)).map
    (fun c => if c == '\n' then ' ' else c)))

/-- `fileName.replace(/\.[^/.]+$/, '.wav')` (AudioHandler.ts line 18):
replace a final extension (a dot followed by one or more characters
that are neither `/` nor `.`) with `.wav`. -/
def replaceExtWithWav (s : String) : String :=
  let cs := s.toList
  let revExt := cs.reverse.takeWhile (fun c => c != '.' && c != '/')
  if revExt.length ≥ 1 ∧ (cs.reverse.drop revExt.length).head? = some '.' then
    String.mk (cs.take (cs.length - revExt.length - 1) ++ ".wav".toList)
  else s

/-! ## The transcription pipeline (AudioHandler.sendAudioData)

The current handler (AudioHandler.ts lines 14–562). Network calls and
vault operations are oracles supplied through `Env`; every dispatched
request and every `new Notice(...)` is recorded as an event in program
order. Notices are modelled structurally (one constructor per distinct
message template of the source, carrying the interpolated part). -/

inductive NoticeMsg
  | audioSaved                       -- "Audio saved successfully."
  | audioSaveError (e : String)      -- "Error saving audio file: " + e
  | parsingAudio (name : String)     -- "Parsing audio data:" + name
  | postProcessingStarted            -- "Post-processing transcription..."
  | postProcessingComplete           -- "Post-processing complete."
  | postProcessError (e : String)    -- "Error during post-processing: " + e
  | generatingTitle                  -- "Generating title..."
  | titleGenerated (t : String)      -- "Title generated: " + t
  | titleError (e : String)          -- "Error generating title: " + e
  | parsedSuccessfully               -- "Audio parsed successfully."
  | parseError (e : String)          -- "Error parsing audio: " + e
deriving DecidableEq, Repr

inductive Event
  | request (stage provider auth : String)
  | notice (m : NoticeMsg)
  | wroteBinary (path : String)
  | renamed (oldPath newPath : String)
  | createdNote (path content : String)
  | openedLink (path : String)
  | insertedAtCursor (content : String)
deriving DecidableEq, Repr

/-- The settings fields `sendAudioData` reads. `saveAudioFile` is the
stale legacy field read at line 521 — it is absent from the current
`WhisperSettings` interface (which has `audioSavingToggle` instead), so
at runtime it carries whatever truthiness old persisted data gives it;
it is modelled as an independent boolean. -/
structure HSettings where
  silenceRemovalToggle : Bool
  audioSavingToggle : Bool
  audioSavingPath : String
  createNewFileAfterRecording : Bool
  createNewFileAfterRecordingPath : String
  debugMode : Bool
  transcriptionMode : String
  postProcessingProvider : String
  openAIAPIKey : String
  openAIFormatAPIKey : String
  openAIFormatAPIUri : String
  geminiAPIKey : String
  anthropicAPIKey : String
  postProcessingToggle : Bool
  postProcessingModel : String
  postProcessingPrompt : String
  titleGenerationToggle : Bool
  titleGenerationModel : String
  titleGenerationPrompt : String
  keepOriginalTranscription : Bool
  saveAudioFile : Bool
deriving Repr

/-- Oracles for the awaited external calls, and whether a markdown view
is active. Successful transcription/post-processing/title results carry
the text at the provider's response-extraction path (before any
`.trim()` the handler itself applies). -/
structure Env where
  writeBinaryResult : Except String Unit
  transcribeResult : Except String String
  postProcessResult : Except String String
  titleResult : Except String String
  renameResult : Except String Unit
  createResult : Except String Unit
  activeView : Bool
deriving Repr

/-- `path ? path + "/" : ""` (string truthiness = non-empty). -/
def dirPrefix (p : String) : String := if p ≠ "" then p ++ "/" else ""

/-- Post-processing, continuation after a successful response
(lines 233/271/298/323): the already-extracted text becomes the final
text and the debug completion notice may fire. -/
def postProcessOk (s : HSettings) (pre : List Event) (t : String) :
    List Event × String :=
  (pre ++ (if s.debugMode then [Event.notice .postProcessingComplete] else []), t)

/-- Post-processing, stage-local catch (lines 329–334). -/
def postProcessErr (finalText : String) (pre : List Event) (e : String) :
    List Event × String :=
  (pre ++ [Event.notice (.postProcessError e)], finalText)

/-- Post-processing (lines 196–335): gated on toggle, model, prompt and
stt-mode; Gemini/Anthropic check their key first and throw into the
stage-local catch; on any failure the text falls back unchanged and one
`postProcessError` notice is recorded. Returns events and final text. -/
def postProcessStage (s : HSettings) (env : Env) (finalText : String) :
    List Event × String :=
  if s.postProcessingToggle ∧ s.postProcessingModel ≠ "" ∧
      s.postProcessingPrompt ≠ "" ∧ s.transcriptionMode = "stt-mode" then
    let dbg := if s.debugMode then [Event.notice .postProcessingStarted] else []
    if s.postProcessingProvider = "openai" then
      match env.postProcessResult with
      | .ok t =>
          postProcessOk s (dbg ++ [.request "postprocess" "openai" s.openAIAPIKey])
            (jsTrimS t)
      | .error e =>
          postProcessErr finalText
            (dbg ++ [.request "postprocess" "openai" s.openAIAPIKey]) e
    else if s.postProcessingProvider = "gemini" then
      if s.geminiAPIKey = "" then
        postProcessErr finalText dbg "Gemini API key is required for Gemini models"
      else
        match env.postProcessResult with
        | .ok t =>
            postProcessOk s (dbg ++ [.request "postprocess" "gemini" s.geminiAPIKey]) t
        | .error e =>
            postProcessErr finalText
              (dbg ++ [.request "postprocess" "gemini" s.geminiAPIKey]) e
    else if s.postProcessingProvider = "anthropic" then
      if s.anthropicAPIKey = "" then
        postProcessErr finalText dbg "Anthropic API key is required for Claude models"
      else
        match env.postProcessResult with
        | .ok t =>
            postProcessOk s
              (dbg ++ [.request "postprocess" "anthropic" s.anthropicAPIKey]) t
        | .error e =>
            postProcessErr finalText
              (dbg ++ [.request "postprocess" "anthropic" s.anthropicAPIKey]) e
    else
      match env.postProcessResult with
      | .ok t =>
          postProcessOk s
            (dbg ++ [.request "postprocess" "custom" s.openAIFormatAPIKey]) (jsTrimS t)
      | .error e =>
          postProcessErr finalText
            (dbg ++ [.request "postprocess" "custom" s.openAIFormatAPIKey]) e
  else ([], finalText)

/-- Title generation, continuation after a successful extraction
(lines 467–506): debug notice, truthiness check, sanitization, path
rebuild and conditional rename (whose failure is caught by the
stage-local catch after the paths were already reassigned). -/
def titleOk (s : HSettings) (env : Env)
    (timestampedFileName audioFilePath noteFilePath : String)
    (pre : List Event) (t : String) : List Event × String × String :=
  let dbg2 := if s.debugMode then [Event.notice (.titleGenerated t)] else []
  if t ≠ "" then
    let cleaned := sanitizeTitle t
    let nowFileName := cleaned ++ " - " ++ timestampedFileName
    let nowBase := getBaseFileNameS nowFileName
    let audioNew := dirPrefix s.audioSavingPath ++ nowFileName
    let noteNew := dirPrefix s.createNewFileAfterRecordingPath ++ nowBase ++ ".md"
    if s.audioSavingToggle then
      let oldAudioPath := dirPrefix s.audioSavingPath ++ timestampedFileName
      match env.renameResult with
      | .ok _ =>
          (pre ++ dbg2 ++ [Event.renamed oldAudioPath audioNew], audioNew, noteNew)
      | .error e =>
          (pre ++ dbg2 ++ [Event.notice (.titleError e)], audioNew, noteNew)
    else (pre ++ dbg2, audioNew, noteNew)
  else (pre ++ dbg2, audioFilePath, noteFilePath)

/-- Title generation, stage-local catch (lines 507–511). -/
def titleErr (audioFilePath noteFilePath : String) (pre : List Event)
    (e : String) : List Event × String × String :=
  (pre ++ [Event.notice (.titleError e)], audioFilePath, noteFilePath)

/-- Title generation (lines 338–512): gated on toggle, model, prompt;
per-provider dispatch with the Gemini/Anthropic key checks. Returns
events and the updated audio/note paths. -/
def titleStage (s : HSettings) (env : Env)
    (timestampedFileName audioFilePath noteFilePath : String) :
    List Event × String × String :=
  if s.titleGenerationToggle ∧ s.titleGenerationModel ≠ "" ∧
      s.titleGenerationPrompt ≠ "" then
    let dbg := if s.debugMode then [Event.notice .generatingTitle] else []
    if s.postProcessingProvider = "openai" then
      match env.titleResult with
      | .ok t =>
          titleOk s env timestampedFileName audioFilePath noteFilePath
            (dbg ++ [.request "title" "openai" s.openAIAPIKey]) (jsTrimS t)
      | .error e =>
          titleErr audioFilePath noteFilePath
            (dbg ++ [.request "title" "openai" s.openAIAPIKey]) e
    else if s.postProcessingProvider = "gemini" then
      if s.geminiAPIKey = "" then
        titleErr audioFilePath noteFilePath dbg
          "Gemini API key is required for Gemini models"
      else
        match env.titleResult with
        | .ok t =>
            titleOk s env timestampedFileName audioFilePath noteFilePath
              (dbg ++ [.request "title" "gemini" s.geminiAPIKey]) t
        | .error e =>
            titleErr audioFilePath noteFilePath
              (dbg ++ [.request "title" "gemini" s.geminiAPIKey]) e
    else if s.postProcessingProvider = "anthropic" then
      if s.anthropicAPIKey = "" then
        titleErr audioFilePath noteFilePath dbg
          "Anthropic API key is required for Claude models"
      else
        match env.titleResult with
        | .ok t =>
            titleOk s env timestampedFileName audioFilePath noteFilePath
              (dbg ++ [.request "title" "anthropic" s.anthropicAPIKey]) t
        | .error e =>
            titleErr audioFilePath noteFilePath
              (dbg ++ [.request "title" "anthropic" s.anthropicAPIKey]) e
    else
      match env.titleResult with
      | .ok t =>
          titleOk s env timestampedFileName audioFilePath noteFilePath
            (dbg ++ [.request "title" "custom" s.openAIFormatAPIKey]) (jsTrimS t)
      | .error e =>
          titleErr audioFilePath noteFilePath
            (dbg ++ [.request "title" "custom" s.openAIFormatAPIKey]) e
  else ([], audioFilePath, noteFilePath)

/-- Note assembly (lines 520–528): the embed is gated on the legacy
`saveAudioFile` field; the "Original Dictation" section is appended
when enabled and the final text differs from the original. -/
def assembleNoteContent (s : HSettings) (audioFilePath originalText finalText : String) :
    String :=
  let base :=
    if s.saveAudioFile then "![[" ++ audioFilePath ++ "]]\n" ++ finalText
    else finalText
  if s.keepOriginalTranscription ∧ finalText ≠ originalText then
    base ++ "\n\n## Original Dictation\n" ++ originalText
  else base

/-- Persistence (lines 530–557): create a new note (failure throws to
the outer catch) or insert at the cursor. -/
def persistStage (s : HSettings) (env : Env) (noteFilePath noteContent : String) :
    List Event :=
  if s.createNewFileAfterRecording || !env.activeView then
    match env.createResult with
    | .ok _ =>
        [Event.createdNote noteFilePath noteContent, Event.openedLink noteFilePath,
          Event.notice .parsedSuccessfully]
    | .error e => [Event.notice (.parseError e)]
  else
    [Event.insertedAtCursor noteContent, Event.notice .parsedSuccessfully]

structure RunResult where
  events : List Event
  audioFilePath : String
  noteFilePath : String
  originalText : String
  finalText : String
  noteContent : Option String
deriving Repr

/-- The pipeline tail after a successful transcription: post-process,
title-generate, assemble, persist. `pre` holds the events recorded so
far (audio save, debug, transcription request). -/
def pipelineTail (s : HSettings) (env : Env)
    (timestampedFileName audioFilePath noteFilePath : String)
    (pre : List Event) (originalText : String) : RunResult :=
  let pp := postProcessStage s env originalText
  let tt := titleStage s env timestampedFileName audioFilePath noteFilePath
  let noteContent := assembleNoteContent s tt.2.1 originalText pp.2
  let persistEvents := persistStage s env tt.2.2 noteContent
  { events := pre ++ pp.1 ++ tt.1 ++ persistEvents
    audioFilePath := tt.2.1, noteFilePath := tt.2.2
    originalText := originalText, finalText := pp.2
    noteContent := some noteContent }

/-- The abort path: the outer catch (lines 558–561) reports the error;
no note is assembled. -/
def pipelineAbort (audioFilePath noteFilePath : String) (pre : List Event)
    (e : String) : RunResult :=
  { events := pre ++ [Event.notice (.parseError e)]
    audioFilePath := audioFilePath, noteFilePath := noteFilePath
    originalText := "", finalText := "", noteContent := none }

/-- `sendAudioData` (AudioHandler.ts lines 14–562). In llm-mode only
the openai/gemini providers dispatch a transcription request (any other
provider silently leaves the text empty and continues); stt-mode posts
the multipart form to the configured openai-format endpoint. A
transcription error propagates to the outer catch and aborts;
`noteContent` is the assembled note content (`none` on abort). -/
def sendAudioData (s : HSettings) (env : Env) (fileName : String) : RunResult :=
  let timestampedFileName :=
    if s.silenceRemovalToggle then replaceExtWithWav fileName else fileName
  let baseFileName := getBaseFileNameS timestampedFileName
  let audioFilePath := dirPrefix s.audioSavingPath ++ timestampedFileName
  let noteFilePath :=
    dirPrefix s.createNewFileAfterRecordingPath ++ baseFileName ++ ".md"
  let saveEvents :=
    if s.audioSavingToggle then
      match env.writeBinaryResult with
      | .ok _ => [Event.wroteBinary audioFilePath, Event.notice .audioSaved]
      | .error e => [Event.notice (.audioSaveError e)]
    else []
  let dbgParse :=
    if s.debugMode then [Event.notice (.parsingAudio timestampedFileName)] else []
  let pre := saveEvents ++ dbgParse
  if s.transcriptionMode = "llm-mode" then
    if s.postProcessingProvider = "openai" then
      match env.transcribeResult with
      | .ok t =>
          pipelineTail s env timestampedFileName audioFilePath noteFilePath
            (pre ++ [Event.request "transcribe" "openai" s.openAIFormatAPIKey])
            (jsTrimS t)
      | .error e =>
          pipelineAbort audioFilePath noteFilePath
            (pre ++ [Event.request "transcribe" "openai" s.openAIFormatAPIKey]) e
    else if s.postProcessingProvider = "gemini" then
      match env.transcribeResult with
      | .ok t =>
          pipelineTail s env timestampedFileName audioFilePath noteFilePath
            (pre ++ [Event.request "transcribe" "gemini" s.geminiAPIKey]) t
      | .error e =>
          pipelineAbort audioFilePath noteFilePath
            (pre ++ [Event.request "transcribe" "gemini" s.geminiAPIKey]) e
    else
      pipelineTail s env timestampedFileName audioFilePath noteFilePath pre ""
  else
    match env.transcribeResult with
    | .ok t =>
        pipelineTail s env timestampedFileName audioFilePath noteFilePath
          (pre ++ [Event.request "transcribe" "stt" s.openAIFormatAPIKey]) t
    | .error e =>
        pipelineAbort audioFilePath noteFilePath
          (pre ++ [Event.request "transcribe" "stt" s.openAIFormatAPIKey]) e

/-- Counts the post-processing failure notices in a trace. -/
def countPostProcessErrors (evs : List Event) : ℕ :=
  evs.countP (fun ev => match ev with
    | .notice (.postProcessError _) => true
    | _ => false)

/-- Counts the dispatched requests for a given pipeline stage. -/
def countRequestsForStage (evs : List Event) (stage : String) : ℕ :=
  evs.countP (fun ev => match ev with
    | .request st _ _ => st == stage
    | _ => false)

/-! ### Concrete fixtures for witnesses and counterexamples -/

def egSettings : HSettings where
  silenceRemovalToggle := false
  audioSavingToggle := false
  audioSavingPath := ""
  createNewFileAfterRecording := true
  createNewFileAfterRecordingPath := ""
  debugMode := false
  transcriptionMode := "stt-mode"
  postProcessingProvider := "openai"
  openAIAPIKey := ""
  openAIFormatAPIKey := ""
  openAIFormatAPIUri := ""
  geminiAPIKey := ""
  anthropicAPIKey := ""
  postProcessingToggle := false
  postProcessingModel := ""
  postProcessingPrompt := ""
  titleGenerationToggle := false
  titleGenerationModel := ""
  titleGenerationPrompt := ""
  keepOriginalTranscription := false
  saveAudioFile := false

def egEnv : Env where
  writeBinaryResult := .ok ()
  transcribeResult := .ok "hello"
  postProcessResult := .error "boom"
  titleResult := .ok "My: Title\n"
  renameResult := .ok ()
  createResult := .ok ()
  activeView := false

def egSettingsPP : HSettings := { egSettings with
  postProcessingToggle := true
  postProcessingModel := "gpt-4.1-mini"
  postProcessingPrompt := "Fix up." }

def egSettingsTitle : HSettings := { egSettings with
  titleGenerationToggle := true
  titleGenerationModel := "m"
  titleGenerationPrompt := "p"
  postProcessingProvider := "gemini"
  geminiAPIKey := "k" }

def egSettingsSave : HSettings := { egSettings with
  audioSavingToggle := true
  keepOriginalTranscription := true
  postProcessingToggle := true
  postProcessingModel := "gpt"
  postProcessingPrompt := "fix"
  saveAudioFile := false }

def egEnvPPOk : Env := { egEnv with postProcessResult := .ok "polished" }

def egSettingsGemPP : HSettings := { egSettingsPP with
  postProcessingProvider := "gemini" }

def egSettingsLLMOther : HSettings := { egSettings with
  transcriptionMode := "llm-mode"
  postProcessingProvider := "anthropic" }

/-! ## Theorems

Core rational arithmetic is sealed `irreducible` in this toolchain;
re-opening it lets `decide` evaluate the models on concrete inputs. -/

attribute [local semireducible] Rat.add Rat.sub Rat.mul Rat.inv

theorem scanInv_init (minSilenceSamples : ℚ) :
    ScanInv minSilenceSamples 0 ⟨[], true, 0, 0⟩ := by
  refine ⟨.nil, ?_, ?_, ?_, ?_, ?_⟩ <;> simp [ScanState.marker]

theorem scanInv_step (threshold minSilenceSamples : ℚ) (st : ScanState) (k : ℕ)
    (v : ℚ) (h : ScanInv minSilenceSamples k st) :
    ScanInv minSilenceSamples (k + 1) (scanStep threshold minSilenceSamples st k v) := by
  obtain ⟨hord, hbnd, hmle, hmpos, hend, hsil⟩ := h
  unfold scanStep
  by_cases hs : st.isInSilence <;> simp only [hs, if_true, if_false, Bool.false_eq_true]
  · -- currently in silence
    by_cases hv : |v| > threshold <;> simp only [hv, if_true, if_false]
    · -- leaving silence; maybe push the silence segment
      simp only [ScanState.marker, hs, if_true] at hmle hmpos hend
      by_cases hlong : (k : ℚ) - (st.silenceStart : ℚ) ≥ minSilenceSamples <;>
        simp only [hlong, if_true, if_false]
      · refine ⟨?_, ?_, ?_, ?_, ?_, ?_⟩
        · refine List.pairwise_append.2 ⟨hord, List.pairwise_singleton _ _, ?_⟩
          intro a ha b hb
          simp only [List.mem_singleton] at hb
          subst hb
          exact hend a ha
        · intro s hsmem
          rcases List.mem_append.1 hsmem with hmem | hmem
          · exact ⟨(hbnd s hmem).1, Nat.le_succ_of_le (hbnd s hmem).2⟩
          · simp only [List.mem_singleton] at hmem
            subst hmem
            exact ⟨hmle, Nat.le_succ k⟩
        · simp [ScanState.marker]
        · simp only [ScanState.marker, if_false, Bool.false_eq_true]
          right; exact Nat.lt_succ_self k
        · intro s hsmem
          simp only [ScanState.marker, if_false, Bool.false_eq_true]
          rcases List.mem_append.1 hsmem with hmem | hmem
          · exact le_trans (hend s hmem) hmle
          · simp only [List.mem_singleton] at hmem
            subst hmem
            exact le_refl k
        · intro s hsmem hssil
          rcases List.mem_append.1 hsmem with hmem | hmem
          · exact hsil s hmem hssil
          · simp only [List.mem_singleton] at hmem
            subst hmem
            exact hlong
      · refine ⟨hord, fun s hm => ⟨(hbnd s hm).1, Nat.le_succ_of_le (hbnd s hm).2⟩,
          ?_, ?_, ?_, hsil⟩
        · simp [ScanState.marker]
        · simp only [ScanState.marker, if_false, Bool.false_eq_true]
          right; exact Nat.lt_succ_self k
        · intro s hm
          simp only [ScanState.marker, if_false, Bool.false_eq_true]
          exact le_trans (hend s hm) hmle
    · exact ⟨hord, fun s hm => ⟨(hbnd s hm).1, Nat.le_succ_of_le (hbnd s hm).2⟩,
        Nat.le_succ_of_le hmle,
        hmpos.imp id (fun hlt => Nat.lt_succ_of_lt hlt), hend, hsil⟩
  · -- currently in a voiced run
    by_cases hv : |v| ≤ threshold <;> simp only [hv, if_true, if_false]
    · simp only [ScanState.marker, hs, if_false, Bool.false_eq_true] at hmle hmpos hend
      by_cases hlt : st.nonSilenceStart < k <;> simp only [hlt, if_true, if_false]
      · refine ⟨?_, ?_, ?_, ?_, ?_, ?_⟩
        · refine List.pairwise_append.2 ⟨hord, List.pairwise_singleton _ _, ?_⟩
          intro a ha b hb
          simp only [List.mem_singleton] at hb
          subst hb
          exact hend a ha
        · intro s hsmem
          rcases List.mem_append.1 hsmem with hmem | hmem
          · exact ⟨(hbnd s hmem).1, Nat.le_succ_of_le (hbnd s hmem).2⟩
          · simp only [List.mem_singleton] at hmem
            subst hmem
            exact ⟨Nat.le_of_lt hlt, Nat.le_succ k⟩
        · simp [ScanState.marker]
        · simp only [ScanState.marker, if_true]
          right; exact Nat.lt_succ_self k
        · intro s hsmem
          simp only [ScanState.marker, if_true]
          rcases List.mem_append.1 hsmem with hmem | hmem
          · exact le_trans (hend s hmem) (Nat.le_of_lt hlt)
          · simp only [List.mem_singleton] at hmem
            subst hmem
            exact le_refl k
        · intro s hsmem hssil
          rcases List.mem_append.1 hsmem with hmem | hmem
          · exact hsil s hmem hssil
          · simp only [List.mem_singleton] at hmem
            subst hmem
            simp at hssil
      · refine ⟨hord, fun s hm => ⟨(hbnd s hm).1, Nat.le_succ_of_le (hbnd s hm).2⟩,
          ?_, ?_, ?_, hsil⟩
        · simp [ScanState.marker]
        · simp only [ScanState.marker, if_true]
          right; exact Nat.lt_succ_self k
        · intro s hm
          simp only [ScanState.marker, if_true]
          exact le_trans (hend s hm) hmle
    · exact ⟨hord, fun s hm => ⟨(hbnd s hm).1, Nat.le_succ_of_le (hbnd s hm).2⟩,
        Nat.le_succ_of_le hmle,
        hmpos.imp id (fun hlt => Nat.lt_succ_of_lt hlt), hend, hsil⟩

theorem scanInv_run (threshold minSilenceSamples : ℚ) :
    ∀ (data : List ℚ) (i : ℕ) (st : ScanState),
      ScanInv minSilenceSamples i st →
      ScanInv minSilenceSamples (i + data.length)
        (scanSegments threshold minSilenceSamples st i data)
  | [], i, st, h => by simpa [scanSegments] using h
  | v :: rest, i, st, h => by
      have hstep := scanInv_step threshold minSilenceSamples st i v h
      have hrec := scanInv_run threshold minSilenceSamples rest (i + 1)
        (scanStep threshold minSilenceSamples st i v) hstep
      simpa [scanSegments, Nat.add_comm, Nat.add_assoc, Nat.add_left_comm] using hrec

theorem finalizeSegments_props (minSilenceSamples : ℚ) (st : ScanState) (len : ℕ)
    (h : ScanInv minSilenceSamples len st) :
    (finalizeSegments st len).Pairwise (fun a b => a.stop ≤ b.start) ∧
    (∀ s ∈ finalizeSegments st len, s.start ≤ s.stop ∧ s.stop ≤ len) ∧
    (∀ s ∈ finalizeSegments st len, s.isSilence = true →
      s.stop = len ∨ minSilenceSamples ≤ (s.stop : ℚ) - (s.start : ℚ)) ∧
    (st.marker < len →
      ∃ s, (finalizeSegments st len).getLast? = some s ∧ s.stop = len) := by
  obtain ⟨hord, hbnd, hmle, _, hend, hsil⟩ := h
  unfold finalizeSegments
  by_cases hs : st.isInSilence
  · have hns : ¬ (!st.isInSilence ∧ st.nonSilenceStart < len) := by
      simp [hs]
    simp only [hns, if_false]
    simp only [ScanState.marker, hs, if_true] at hmle hend
    by_cases hlt : st.silenceStart < len
    · simp only [hs, hlt, and_self, if_true, true_and]
      refine ⟨?_, ?_, ?_, ?_⟩
      · refine List.pairwise_append.2 ⟨hord, List.pairwise_singleton _ _, ?_⟩
        intro a ha b hb
        simp only [List.mem_singleton] at hb
        subst hb
        exact hend a ha
      · intro s hsm
        rcases List.mem_append.1 hsm with hm | hm
        · exact ⟨(hbnd s hm).1, le_trans (hbnd s hm).2 le_rfl⟩
        · simp only [List.mem_singleton] at hm
          subst hm
          exact ⟨Nat.le_of_lt hlt, le_rfl⟩
      · intro s hsm hssil
        rcases List.mem_append.1 hsm with hm | hm
        · exact Or.inr (hsil s hm hssil)
        · simp only [List.mem_singleton] at hm
          subst hm
          exact Or.inl rfl
      · intro _
        exact ⟨_, List.getLast?_concat _, rfl⟩
    · simp only [hs, hlt, and_false, if_false, true_and]
      refine ⟨hord, fun s hm => ⟨(hbnd s hm).1, (hbnd s hm).2⟩,
        fun s hm hss => Or.inr (hsil s hm hss), fun hc => absurd hc ?_⟩
      simp only [ScanState.marker, hs, if_true]
      exact hlt
  · have hb : (!st.isInSilence) = true := by simp [hs]
    simp only [ScanState.marker, hs, if_false] at hmle hend
    by_cases hlt : st.nonSilenceStart < len
    · simp only [hb, hlt, and_self, if_true, true_and]
      refine ⟨?_, ?_, ?_, ?_⟩
      · refine List.pairwise_append.2 ⟨hord, List.pairwise_singleton _ _, ?_⟩
        intro a ha b hb'
        simp only [List.mem_singleton] at hb'
        subst hb'
        exact hend a ha
      · intro s hsm
        rcases List.mem_append.1 hsm with hm | hm
        · exact ⟨(hbnd s hm).1, (hbnd s hm).2⟩
        · simp only [List.mem_singleton] at hm
          subst hm
          exact ⟨Nat.le_of_lt hlt, le_rfl⟩
      · intro s hsm hssil
        rcases List.mem_append.1 hsm with hm | hm
        · exact Or.inr (hsil s hm hssil)
        · simp only [List.mem_singleton] at hm
          subst hm
          simp at hssil
      · intro _
        exact ⟨_, List.getLast?_concat _, rfl⟩
    · have hcond : ¬ ((!st.isInSilence) ∧ st.nonSilenceStart < len) := by
        simp [hlt]
      have hcond2 : ¬ (st.isInSilence ∧ st.silenceStart < len) := by
        simp [hs]
      simp only [hcond, hcond2, if_false]
      refine ⟨hord, fun s hm => ⟨(hbnd s hm).1, (hbnd s hm).2⟩,
        fun s hm hss => Or.inr (hsil s hm hss), fun hc => absurd hc ?_⟩
      simp only [ScanState.marker, hs, if_false]
      exact hlt

/-- The scan invariant, established for the full analysis. -/
theorem findAllSegments_inv (data : List ℚ) (threshold minSilenceSamples : ℚ) :
    ScanInv minSilenceSamples data.length
      (scanSegments threshold minSilenceSamples ⟨[], true, 0, 0⟩ 0 data) := by
  have h := scanInv_run threshold minSilenceSamples data 0 ⟨[], true, 0, 0⟩
    (scanInv_init minSilenceSamples)
  simpa using h

/-- C1 (counterexample): on the buffer `[1, 0, 1]` with linear
threshold `1/2` and minimum silence length `2`, the all-segments
analysis returns `[[0,1), [2,3)]` — sample `1` lies in no segment, the
adjacent segments do not share a boundary, so the output is not
contiguous and exhaustive. -/
theorem findAllSegments_not_contiguousExhaustive :
    ¬ ContiguousExhaustive (findAllSegments [1, 0, 1] (1/2) 2) 3 := by
  decide

/-- C1 (amended): for every PCM buffer, the all-segments analysis
output is ordered and pairwise disjoint (every earlier segment ends at
or before every later one starts), every segment satisfies
`start ≤ stop ≤ length`, and for a nonempty buffer the list is
nonempty with its last segment ending exactly at the buffer length.
Contiguity fails in general: silence runs shorter than the minimum
duration are dropped from the list, leaving gaps. -/
theorem findAllSegments_ordered_disjoint_last
    (data : List ℚ) (threshold minSilenceSamples : ℚ) :
    (findAllSegments data threshold minSilenceSamples).Pairwise
      (fun a b => a.stop ≤ b.start) ∧
    (∀ s ∈ findAllSegments data threshold minSilenceSamples,
      s.start ≤ s.stop ∧ s.stop ≤ data.length) ∧
    (data ≠ [] →
      ∃ s, (findAllSegments data threshold minSilenceSamples).getLast? = some s ∧
        s.stop = data.length) := by
  have hinv := findAllSegments_inv data threshold minSilenceSamples
  have h := finalizeSegments_props minSilenceSamples
    (scanSegments threshold minSilenceSamples ⟨[], true, 0, 0⟩ 0 data)
    data.length hinv
  refine ⟨h.1, h.2.1, fun hne => h.2.2.2 ?_⟩
  rcases hinv.marker_pos with h0 | hlt
  · rw [h0]
    exact List.length_pos.2 hne
  · exact hlt

theorem findAllSegments_ordered_disjoint_last_witness :
    ∃ s, (findAllSegments [1, 0, 1] (1/2) 2).getLast? = some s ∧
      s.stop = ([1, 0, 1] : List ℚ).length :=
  (findAllSegments_ordered_disjoint_last [1, 0, 1] (1/2) 2).2.2 (by decide)

/-- C2 (counterexample): on the buffer `[1, 0]` with linear threshold
`1/2` and minimum silence length `3` samples, the trailing silence run
of length `1 < 3` is emitted as a classified silence segment. -/
theorem findAllSegments_short_trailing_silence :
    (⟨1, 2, true⟩ : Segment) ∈ findAllSegments [1, 0] (1/2) 3 ∧
      ((2 : ℚ) - (1 : ℚ) < 3) := by
  decide

/-- C2 (amended): every silence segment in the all-segments output
either ends at the buffer length (the final trailing segment is pushed
without any duration check) or has length at least
`minDurationSeconds * sampleRate`. Short interior silence runs are
dropped from the segment list entirely rather than absorbed into the
adjoining voiced segments: in the `[1, 0, 1]` run, sample `1` (the
short silence) lies in no output segment. -/
theorem findAllSegments_silence_min_or_trailing
    (data : List ℚ) (threshold minSilenceSamples : ℚ) :
    (∀ s ∈ findAllSegments data threshold minSilenceSamples,
      s.isSilence = true →
        s.stop = data.length ∨
          minSilenceSamples ≤ (s.stop : ℚ) - (s.start : ℚ)) ∧
    (∀ s ∈ findAllSegments [1, 0, 1] (1/2) 2, ¬ (s.start ≤ 1 ∧ 1 < s.stop)) := by
  constructor
  · exact (finalizeSegments_props minSilenceSamples
      (scanSegments threshold minSilenceSamples ⟨[], true, 0, 0⟩ 0 data)
      data.length (findAllSegments_inv data threshold minSilenceSamples)).2.2.1
  · decide

theorem findAllSegments_silence_min_or_trailing_witness :
    Segment.stop ⟨1, 2, true⟩ = ([1, 0] : List ℚ).length ∨
      (3 : ℚ) ≤ ((Segment.stop ⟨1, 2, true⟩ : ℕ) : ℚ) -
        ((Segment.start ⟨1, 2, true⟩ : ℕ) : ℚ) :=
  (findAllSegments_silence_min_or_trailing [1, 0] (1/2) 3).1
    ⟨1, 2, true⟩ (by decide) (by decide)

theorem findIdx?_spec {α : Type} (p : α → Bool) :
    ∀ (l : List α) (k : ℕ), l.findIdx? p = some k →
      l.takeWhile (fun x => !p x) = l.take k ∧
      l.dropWhile (fun x => !p x) = l.drop k ∧
      ∃ h : k < l.length, p (l.get ⟨k, h⟩) = true
  | [], k, h => by simp [List.findIdx?] at h
  | a :: t, k, h => by
      rw [List.findIdx?_cons] at h
      by_cases hpa : p a = true
      · simp only [hpa, if_true, Option.some.injEq] at h
        subst h
        refine ⟨?_, ?_, ?_⟩
        · simp [List.takeWhile_cons, hpa]
        · simp [List.dropWhile_cons, hpa]
        · exact ⟨Nat.succ_pos _, by simpa using hpa⟩
      · simp only [hpa, if_false, List.findIdx?_succ] at h
        rcases Option.map_eq_some'.1 h with ⟨k', hk', rfl⟩
        obtain ⟨h1, h2, h3, h4⟩ := findIdx?_spec p t k' hk'
        refine ⟨?_, ?_, ?_⟩
        · simp [List.takeWhile_cons, hpa, h1]
        · simp [List.dropWhile_cons, hpa, h2]
        · exact ⟨Nat.succ_lt_succ h3, by simpa using h4⟩

theorem findIdx?_none_spec {α : Type} (p : α → Bool) (l : List α)
    (h : l.findIdx? p = none) :
    l.takeWhile (fun x => !p x) = l ∧ (∀ x ∈ l, p x = false) := by
  have hall := List.findIdx?_eq_none_iff.1 h
  exact ⟨List.takeWhile_eq_self_iff.2 (fun x hx => by simp [hall x hx]), hall⟩

theorem jsSubstring_of_le (cs : List Char) (a b : ℤ) (ha : 0 ≤ a) (hab : a ≤ b)
    (hb : b ≤ (cs.length : ℤ)) :
    jsSubstring cs a b = (cs.take b.toNat).drop a.toNat := by
  unfold jsSubstring
  have h1 : (max 0 (min a (cs.length : ℤ))).toNat = a.toNat := by omega
  have h2 : (max 0 (min b (cs.length : ℤ))).toNat = b.toNat := by omega
  rw [h1, h2]
  have h3 : min a.toNat b.toNat = a.toNat := by omega
  have h4 : max a.toNat b.toNat = b.toNat := by omega
  rw [h3, h4]

/-- Step 1: the one-argument substring after the last slash is the
final path component. -/
theorem jsSubstring_lastSlash (cs : List Char) :
    jsSubstring cs (jsLastIndexOf cs '/' + 1) cs.length = lastComponent cs := by
  unfold jsLastIndexOf lastComponent
  cases hf : cs.reverse.findIdx? (· == '/') with
  | none =>
      obtain ⟨h1, _⟩ := findIdx?_none_spec (· == '/') cs.reverse hf
      have htw : cs.reverse.takeWhile (fun x => x != '/') = cs.reverse := by
        simpa [bne] using h1
      rw [htw, List.reverse_reverse]
      have heq := jsSubstring_of_le cs 0 cs.length (le_refl 0) (by positivity) le_rfl
      have e1 : ((cs.length : ℤ)).toNat = cs.length := by omega
      have e2 : ((-1 : ℤ) + 1) = 0 := by norm_num
      rw [e2, heq, e1, List.take_length]
      simp
  | some k =>
      obtain ⟨h1, _, hk, _⟩ := findIdx?_spec (· == '/') cs.reverse k hf
      rw [List.length_reverse] at hk
      have htw : cs.reverse.takeWhile (fun x => x != '/') = cs.reverse.take k := by
        simpa [bne] using h1
      rw [htw]
      have hrev : (cs.reverse.take k).reverse = cs.drop (cs.length - k) := by
        rw [List.reverse_take]
        simp
      rw [hrev]
      have harith : (cs.length : ℤ) - 1 - (k : ℤ) + 1 = (cs.length : ℤ) - k := by ring
      rw [harith]
      have heq := jsSubstring_of_le cs ((cs.length : ℤ) - k) cs.length (by omega)
        (by omega) le_rfl
      rw [heq]
      have e1 : ((cs.length : ℤ)).toNat = cs.length := by omega
      have e2 : ((cs.length : ℤ) - k).toNat = cs.length - k := by omega
      rw [e1, e2, List.take_length]

/-- Step 2: the two-argument substring up to the last dot strips the
extension (and yields `[]` when there is no dot). -/
theorem jsSubstring_lastDot (f : List Char) :
    jsSubstring f 0 (jsLastIndexOf f '.') =
      (if '.' ∈ f then ((f.reverse.dropWhile (fun x => x != '.')).tail).reverse
       else []) := by
  unfold jsLastIndexOf
  cases hf : f.reverse.findIdx? (· == '.') with
  | none =>
      obtain ⟨_, hall⟩ := findIdx?_none_spec (· == '.') f.reverse hf
      have hnotmem : '.' ∉ f := by
        intro hmem
        have := hall '.' (List.mem_reverse.2 hmem)
        simp at this
      simp only [hnotmem, if_false]
      unfold jsSubstring
      simp
  | some k =>
      obtain ⟨_, h2, hk, hp⟩ := findIdx?_spec (· == '.') f.reverse k hf
      rw [List.length_reverse] at hk
      have hmem : '.' ∈ f := by
        have hget : f.reverse.get ⟨k, by simpa using hk⟩ = '.' := by
          simpa [beq_iff_eq] using hp
        have hx := List.get_mem f.reverse k (by simpa using hk)
        rw [hget] at hx
        exact List.mem_reverse.1 hx
      have hdw : f.reverse.dropWhile (fun x => x != '.') = f.reverse.drop k := by
        simpa [bne] using h2
      simp only [hmem, if_true]
      rw [hdw, List.tail_drop]
      have hrev : (f.reverse.drop (k + 1)).reverse = f.take (f.length - (k + 1)) := by
        rw [List.reverse_drop]
        simp
      rw [hrev]
      have heq := jsSubstring_of_le f 0 ((f.length : ℤ) - 1 - k) (le_refl 0)
        (by omega) (by omega)
      rw [heq]
      have e1 : ((f.length : ℤ) - 1 - k).toNat = f.length - (k + 1) := by omega
      have e2 : (0 : ℤ).toNat = 0 := rfl
      rw [e1, e2, List.drop_zero]

/-- C10: `getBaseFileName` equals its spec-side description — the final
path component (the whole string when there is no slash) with
everything from its last dot onward removed, and in particular the
empty string when the final component has no dot (so the derived note
file name degenerates to ".md"). -/
theorem getBaseFileName_spec :
    (∀ cs : List Char, getBaseFileName cs = specBaseFileName cs) ∧
    getBaseFileNameS "recording" ++ ".md" = ".md" ∧
    getBaseFileNameS "a/b/c.webm" = "c" := by
  refine ⟨?_, by decide, by decide⟩
  intro cs
  unfold getBaseFileName specBaseFileName
  rw [jsSubstring_lastSlash, jsSubstring_lastDot]

theorem countPP_titleOk (s : HSettings) (env : Env) (a b c : String)
    (pre : List Event) (t : String) (h : countPostProcessErrors pre = 0) :
    countPostProcessErrors (titleOk s env a b c pre t).1 = 0 := by
  unfold countPostProcessErrors at h
  unfold titleOk countPostProcessErrors
  rcases hrn : env.renameResult with e2 | u
  all_goals repeat' split
  all_goals simp only [List.countP_append, h]
  all_goals rfl

theorem countPP_titleStage (s : HSettings) (env : Env) (a b c : String) :
    countPostProcessErrors (titleStage s env a b c).1 = 0 := by
  unfold titleStage titleErr
  rcases hti : env.titleResult with e | t
  all_goals repeat' split
  all_goals
    first
      | (apply countPP_titleOk
         unfold countPostProcessErrors
         repeat' split
         all_goals rfl)
      | (unfold countPostProcessErrors
         repeat' split
         all_goals rfl)
      | rfl

theorem countPP_persistStage (s : HSettings) (env : Env) (a b : String) :
    countPostProcessErrors (persistStage s env a b) = 0 := by
  unfold persistStage countPostProcessErrors
  rcases env.createResult with e | u
  all_goals repeat' split
  all_goals rfl

theorem countReq_titleOk (s : HSettings) (env : Env) (a b c : String)
    (pre : List Event) (t : String)
    (h : countRequestsForStage pre "postprocess" = 0) :
    countRequestsForStage (titleOk s env a b c pre t).1 "postprocess" = 0 := by
  unfold countRequestsForStage at h
  unfold titleOk countRequestsForStage
  rcases hrn : env.renameResult with e2 | u
  all_goals repeat' split
  all_goals simp only [List.countP_append, h]
  all_goals rfl

theorem countReq_titleStage (s : HSettings) (env : Env) (a b c : String) :
    countRequestsForStage (titleStage s env a b c).1 "postprocess" = 0 := by
  unfold titleStage titleErr
  rcases hti : env.titleResult with e | t
  all_goals repeat' split
  all_goals
    first
      | (apply countReq_titleOk
         unfold countRequestsForStage
         repeat' split
         all_goals rfl)
      | (unfold countRequestsForStage
         repeat' split
         all_goals rfl)
      | rfl

theorem countReq_persistStage (s : HSettings) (env : Env) (a b st : String) :
    countRequestsForStage (persistStage s env a b) st = 0 := by
  unfold persistStage countRequestsForStage
  rcases env.createResult with e | u
  all_goals repeat' split
  all_goals rfl

theorem countReqT_postProcessStage (s : HSettings) (env : Env) (t : String) :
    countRequestsForStage (postProcessStage s env t).1 "transcribe" = 0 := by
  unfold postProcessStage postProcessOk postProcessErr countRequestsForStage
  rcases env.postProcessResult with e | u
  all_goals repeat' split
  all_goals rfl

theorem countReqT_titleOk (s : HSettings) (env : Env) (a b c : String)
    (pre : List Event) (t : String)
    (h : countRequestsForStage pre "transcribe" = 0) :
    countRequestsForStage (titleOk s env a b c pre t).1 "transcribe" = 0 := by
  unfold countRequestsForStage at h
  unfold titleOk countRequestsForStage
  rcases hrn : env.renameResult with e2 | u
  all_goals repeat' split
  all_goals simp only [List.countP_append, h]
  all_goals rfl

theorem countReqT_titleStage (s : HSettings) (env : Env) (a b c : String) :
    countRequestsForStage (titleStage s env a b c).1 "transcribe" = 0 := by
  unfold titleStage titleErr
  rcases hti : env.titleResult with e | t
  all_goals repeat' split
  all_goals
    first
      | (apply countReqT_titleOk
         unfold countRequestsForStage
         repeat' split
         all_goals rfl)
      | (unfold countRequestsForStage
         repeat' split
         all_goals rfl)
      | rfl

theorem countReqT_pipelineTail (s : HSettings) (env : Env)
    (a b c : String) (pre : List Event) (t : String)
    (h : countRequestsForStage pre "transcribe" = 0) :
    countRequestsForStage (pipelineTail s env a b c pre t).events "transcribe" = 0 := by
  unfold pipelineTail
  dsimp only
  unfold countRequestsForStage
  simp only [List.countP_append]
  have e1 := countReqT_postProcessStage s env t
  have e2 := countReqT_titleStage s env a b c
  have e3 := countReq_persistStage s env (titleStage s env a b c).2.2
    (assembleNoteContent s (titleStage s env a b c).2.1 t (postProcessStage s env t).2)
    "transcribe"
  unfold countRequestsForStage at h e1 e2 e3
  rw [h, e1, e2, e3]

/-- C5 (amended, with C5 counterexample below): for EVERY settings
record, environment and file name — hence under every transcription
mode, every provider and every key value, the empty string included —
the Transcribe stage performs no pre-dispatch credential check. In any
mode other than llm-mode the multipart STT request is dispatched
unconditionally with whatever `openAIFormatAPIKey` holds; in llm-mode
the openai provider dispatches with `openAIFormatAPIKey` and the gemini
provider with `geminiAPIKey`, again unconditionally; in llm-mode with
any other provider no transcription request is dispatched at all and
the pipeline silently continues with an empty transcript, still
producing a note. A missing key is only ever surfaced by the provider
response. Pre-dispatch credential checks exist only inside the
Gemini/Anthropic branches of the optional stages (shown here for
Gemini post-processing: with an empty Gemini key the post-process
request is never dispatched and the stage fails with its key-check
message). -/
theorem transcribe_dispatches_without_credential_check :
    (∀ (s : HSettings) (env : Env) (fileName : String),
      if s.transcriptionMode = "llm-mode" then
        if s.postProcessingProvider = "openai" then
          Event.request "transcribe" "openai" s.openAIFormatAPIKey ∈
            (sendAudioData s env fileName).events
        else if s.postProcessingProvider = "gemini" then
          Event.request "transcribe" "gemini" s.geminiAPIKey ∈
            (sendAudioData s env fileName).events
        else
          countRequestsForStage (sendAudioData s env fileName).events "transcribe" = 0 ∧
          (sendAudioData s env fileName).originalText = "" ∧
          ((sendAudioData s env fileName).noteContent).isSome = true
      else
        Event.request "transcribe" "stt" s.openAIFormatAPIKey ∈
          (sendAudioData s env fileName).events) ∧
    (∀ (s : HSettings) (env : Env) (fileName t : String),
      s.transcriptionMode = "stt-mode" → env.transcribeResult = .ok t →
      s.postProcessingToggle = true → s.postProcessingModel ≠ "" →
      s.postProcessingPrompt ≠ "" → s.postProcessingProvider = "gemini" →
      s.geminiAPIKey = "" →
        countRequestsForStage (sendAudioData s env fileName).events "postprocess" = 0 ∧
        Event.notice
            (.postProcessError "Gemini API key is required for Gemini models") ∈
          (sendAudioData s env fileName).events) := by
  constructor
  · intro s env fileName
    by_cases h1 : s.transcriptionMode = "llm-mode"
    · rw [if_pos h1]
      by_cases h2 : s.postProcessingProvider = "openai"
      · rw [if_pos h2]
        unfold sendAudioData
        rw [if_pos h1, if_pos h2]
        rcases env.transcribeResult with e | t <;>
          simp [pipelineTail, pipelineAbort]
      · rw [if_neg h2]
        by_cases h3 : s.postProcessingProvider = "gemini"
        · rw [if_pos h3]
          unfold sendAudioData
          rw [if_pos h1, if_neg h2, if_pos h3]
          rcases env.transcribeResult with e | t <;>
            simp [pipelineTail, pipelineAbort]
        · rw [if_neg h3]
          unfold sendAudioData
          rw [if_pos h1, if_neg h2, if_neg h3]
          refine ⟨?_, rfl, rfl⟩
          apply countReqT_pipelineTail
          unfold countRequestsForStage
          simp only [List.countP_append]
          rcases env.writeBinaryResult with e | u
          all_goals repeat' split
          all_goals rfl
    · rw [if_neg h1]
      unfold sendAudioData
      rw [if_neg h1]
      rcases env.transcribeResult with e | t <;>
        simp [pipelineTail, pipelineAbort]
  · intro s env fileName t h1 h2 h3 h4 h5 h6 h7
    unfold sendAudioData
    rw [h1, if_neg (by simp), h2]
    dsimp only
    unfold pipelineTail
    dsimp only
    have hpp : postProcessStage s env t =
        postProcessErr t
          (if s.debugMode = true then [Event.notice .postProcessingStarted] else [])
          "Gemini API key is required for Gemini models" := by
      unfold postProcessStage
      rw [if_pos ⟨h3, h4, h5, h1⟩, if_neg (by rw [h6]; simp), if_pos h6, if_pos h7]
    rw [hpp]
    unfold postProcessErr
    constructor
    · unfold countRequestsForStage
      simp only [List.countP_append]
      have e1 := countReq_titleStage s env
        (if s.silenceRemovalToggle = true then replaceExtWithWav fileName else fileName)
        (dirPrefix s.audioSavingPath ++
          (if s.silenceRemovalToggle = true then replaceExtWithWav fileName else fileName))
        (dirPrefix s.createNewFileAfterRecordingPath ++
          getBaseFileNameS
            (if s.silenceRemovalToggle = true then replaceExtWithWav fileName
             else fileName) ++ ".md")
      unfold countRequestsForStage at e1
      have e2 := countReq_persistStage s env
      unfold countRequestsForStage at e2
      rw [e1, e2]
      repeat' split
      all_goals rfl
    · simp [List.mem_append]

/-- C5 (counterexample): with an empty speech-to-text API key the
mandatory transcription request is still dispatched, carrying the empty
credential — there is no pre-dispatch key check on this stage; and in
llm-mode with the anthropic provider no transcription request is
dispatched at all (with no credential check either), yet a note is
still produced from the empty transcript. -/
theorem transcribe_dispatched_with_missing_credential :
    (egSettings.openAIFormatAPIKey = "" ∧
     Event.request "transcribe" "stt" "" ∈
       (sendAudioData egSettings egEnv "rec.webm").events) ∧
    (countRequestsForStage
        (sendAudioData egSettingsLLMOther egEnv "rec.webm").events "transcribe" = 0 ∧
     (sendAudioData egSettingsLLMOther egEnv "rec.webm").originalText = "" ∧
     ((sendAudioData egSettingsLLMOther egEnv "rec.webm").noteContent).isSome = true) := by
  decide

/-- C7 (code bug): with `audioSavingToggle = true` the audio file IS
written to the vault, yet the assembled note content contains no
`![[...]]` embed, because the embed is gated on the stale legacy field
`saveAudioFile` (falsy here) rather than on `audioSavingToggle`; the
`## Original Dictation` section of the claim matches the code. -/
theorem assemble_embed_gated_on_stale_field :
    Event.wroteBinary "rec.webm" ∈
      (sendAudioData egSettingsSave egEnvPPOk "rec.webm").events ∧
    (sendAudioData egSettingsSave egEnvPPOk "rec.webm").noteContent =
      some ("polished" ++ "\n\n## Original Dictation\n" ++ "hello") := by decide

theorem postProcessStage_fail_parts (s : HSettings) (env : Env) (t e : String)
    (h3 : s.postProcessingToggle = true) (h4 : s.postProcessingModel ≠ "")
    (h5 : s.postProcessingPrompt ≠ "") (h1 : s.transcriptionMode = "stt-mode")
    (hfail : env.postProcessResult = .error e) :
    (postProcessStage s env t).2 = t ∧
    countPostProcessErrors (postProcessStage s env t).1 = 1 := by
  unfold postProcessStage
  rw [if_pos ⟨h3, h4, h5, h1⟩, hfail]
  unfold postProcessErr countPostProcessErrors
  repeat' split
  all_goals first
    | exact ⟨rfl, by rfl⟩
    | simp_all

/-- C6: when transcription succeeds and post-processing fails (any
provider; a missing Gemini/Anthropic key counts as the stage-local
failure too), the pipeline continues: the final text equals the raw
transcript, a note is still assembled, and exactly one post-processing
failure notice is recorded. -/
theorem postProcess_failure_falls_back
    (s : HSettings) (env : Env) (fileName t e : String)
    (h1 : s.transcriptionMode = "stt-mode")
    (h2 : env.transcribeResult = .ok t)
    (h3 : s.postProcessingToggle = true) (h4 : s.postProcessingModel ≠ "")
    (h5 : s.postProcessingPrompt ≠ "")
    (hfail : env.postProcessResult = .error e) :
    (sendAudioData s env fileName).finalText = t ∧
    (sendAudioData s env fileName).originalText = t ∧
    ((sendAudioData s env fileName).noteContent).isSome = true ∧
    countPostProcessErrors (sendAudioData s env fileName).events = 1 := by
  obtain ⟨hp2, hp1⟩ := postProcessStage_fail_parts s env t e h3 h4 h5 h1 hfail
  unfold countPostProcessErrors at hp1
  unfold sendAudioData
  rw [h1, if_neg (by simp), h2]
  dsimp only
  unfold pipelineTail
  dsimp only
  refine ⟨hp2, rfl, rfl, ?_⟩
  unfold countPostProcessErrors
  simp only [List.countP_append, hp1]
  have e1 := countPP_titleStage s env
    (if s.silenceRemovalToggle = true then replaceExtWithWav fileName else fileName)
    (dirPrefix s.audioSavingPath ++
      (if s.silenceRemovalToggle = true then replaceExtWithWav fileName else fileName))
    (dirPrefix s.createNewFileAfterRecordingPath ++
      getBaseFileNameS
        (if s.silenceRemovalToggle = true then replaceExtWithWav fileName
         else fileName) ++ ".md")
  unfold countPostProcessErrors at e1
  rw [e1]
  have e2 := countPP_persistStage s env
    (titleStage s env
      (if s.silenceRemovalToggle = true then replaceExtWithWav fileName else fileName)
      (dirPrefix s.audioSavingPath ++
        (if s.silenceRemovalToggle = true then replaceExtWithWav fileName else fileName))
      (dirPrefix s.createNewFileAfterRecordingPath ++
        getBaseFileNameS
          (if s.silenceRemovalToggle = true then replaceExtWithWav fileName
           else fileName) ++ ".md")).2.2
    (assembleNoteContent s
      (titleStage s env
        (if s.silenceRemovalToggle = true then replaceExtWithWav fileName else fileName)
        (dirPrefix s.audioSavingPath ++
          (if s.silenceRemovalToggle = true then replaceExtWithWav fileName else fileName))
        (dirPrefix s.createNewFileAfterRecordingPath ++
          getBaseFileNameS
            (if s.silenceRemovalToggle = true then replaceExtWithWav fileName
             else fileName) ++ ".md")).2.1
      t (postProcessStage s env t).2)
  unfold countPostProcessErrors at e2
  rw [e2]
  repeat' split
  all_goals rfl

/-- C8: the non-empty title returned by the title stage is sanitized by
replacing the `[/\\?%*:|"<>]` class with `-` and newlines with spaces,
then trimming, and becomes the filename component `<title> - <file>`;
in particular `"My: Title\n"` sanitizes to `"My- Title"`. -/
theorem title_sanitized_into_filename :
    sanitizeTitle (String.mk ['M', 'y', ':', ' ', 'T', 'i', 't', 'l', 'e', '\n']) =
      "My- Title" ∧
    (∀ (s : HSettings) (env : Env) (fileName u t : String),
      s.transcriptionMode = "stt-mode" → env.transcribeResult = .ok u →
      s.titleGenerationToggle = true → s.titleGenerationModel ≠ "" →
      s.titleGenerationPrompt ≠ "" → s.postProcessingProvider = "gemini" →
      ¬ s.geminiAPIKey = "" → env.titleResult = .ok t → t ≠ "" →
        (sendAudioData s env fileName).audioFilePath =
          dirPrefix s.audioSavingPath ++
            (sanitizeTitle t ++ " - " ++
              (if s.silenceRemovalToggle = true then replaceExtWithWav fileName
               else fileName))) := by
  constructor
  · decide
  · intro s env fileName u t h1 h2 ht1 ht2 ht3 h6 h7 hti htne
    unfold sendAudioData
    rw [h1, if_neg (by simp), h2]
    dsimp only
    unfold pipelineTail
    dsimp only
    unfold titleStage
    rw [if_pos ⟨ht1, ht2, ht3⟩, if_neg (by rw [h6]; simp), if_pos h6, if_neg h7, hti]
    dsimp only
    unfold titleOk
    rw [if_pos htne]
    dsimp only
    repeat' split
    all_goals rfl

theorem transcribe_dispatches_without_credential_check_witness :
    (Event.request "transcribe" "stt" egSettings.openAIFormatAPIKey ∈
      (sendAudioData egSettings egEnv "rec.webm").events) ∧
    (countRequestsForStage
        (sendAudioData egSettingsGemPP egEnv "rec.webm").events "postprocess" = 0 ∧
     Event.notice
         (.postProcessError "Gemini API key is required for Gemini models") ∈
       (sendAudioData egSettingsGemPP egEnv "rec.webm").events) := by
  constructor
  · have h := transcribe_dispatches_without_credential_check.1 egSettings egEnv "rec.webm"
    rw [if_neg (by decide)] at h
    exact h
  · exact transcribe_dispatches_without_credential_check.2 egSettingsGemPP egEnv
      "rec.webm" "hello" rfl rfl rfl (by decide) (by decide) rfl rfl

theorem postProcess_failure_falls_back_witness :
    (sendAudioData egSettingsPP egEnv "rec.webm").finalText = "hello" ∧
    (sendAudioData egSettingsPP egEnv "rec.webm").originalText = "hello" ∧
    ((sendAudioData egSettingsPP egEnv "rec.webm").noteContent).isSome = true ∧
    countPostProcessErrors (sendAudioData egSettingsPP egEnv "rec.webm").events = 1 :=
  postProcess_failure_falls_back egSettingsPP egEnv "rec.webm" "hello" "boom"
    rfl rfl rfl (by decide) (by decide) rfl

theorem title_sanitized_into_filename_witness :
    (sendAudioData egSettingsTitle egEnv "rec.webm").audioFilePath =
      dirPrefix egSettingsTitle.audioSavingPath ++
        (sanitizeTitle "My: Title\n" ++ " - " ++
          (if egSettingsTitle.silenceRemovalToggle = true
           then replaceExtWithWav "rec.webm" else "rec.webm")) :=
  title_sanitized_into_filename.2 egSettingsTitle egEnv "rec.webm" "hello"
    "My: Title\n" rfl rfl rfl (by decide) (by decide) rfl (by decide) rfl (by decide)

theorem startScanAux_all_below (data : List ℚ) (threshold : ℚ) :
    ∀ (fuel i : ℕ),
      (∀ j, i ≤ j → j < i + fuel → |data.getD j 0| ≤ threshold) →
      startScanAux data threshold i fuel = i + fuel
  | 0, i, _ => rfl
  | fuel + 1, i, h => by
      unfold startScanAux
      rw [if_neg (not_lt.2 (h i le_rfl (by omega)))]
      have := startScanAux_all_below data threshold fuel (i + 1)
        (fun j hj1 hj2 => h j (by omega) (by omega))
      rw [this]
      omega

theorem endScanAux_le_start (data : List ℚ) (threshold : ℚ) (startIndex : ℕ) :
    ∀ e : ℕ, e ≤ startIndex → endScanAux data threshold startIndex e = e
  | 0, _ => rfl
  | e + 1, h => by
      unfold endScanAux
      rw [if_pos h]

theorem scanSegments_all_below (threshold minSilenceSamples : ℚ) :
    ∀ (data : List ℚ) (i : ℕ),
      (∀ v ∈ data, |v| ≤ threshold) →
      scanSegments threshold minSilenceSamples ⟨[], true, 0, 0⟩ i data =
        ⟨[], true, 0, 0⟩
  | [], _, _ => rfl
  | v :: rest, i, h => by
      unfold scanSegments
      have hv : ¬ |v| > threshold := not_lt.2 (h v (List.mem_cons_self v rest))
      have hstep : scanStep threshold minSilenceSamples ⟨[], true, 0, 0⟩ i v =
          ⟨[], true, 0, 0⟩ := by
        unfold scanStep
        simp [hv]
      rw [hstep]
      exact scanSegments_all_below threshold minSilenceSamples rest (i + 1)
        (fun w hw => h w (List.mem_cons_of_mem v hw))

/-- C9: `removeSilence` is total and never propagates a failure: the
result is always either the original blob or a freshly encoded WAV, and
it is exactly the original blob when the feature toggle is off or when
decoding fails (the catch-all path). -/
theorem removeSilence_total_or_original :
    (∀ (s : SilenceSettings) (d : DecodeResult) (blob : List ℕ),
      removeSilence s d blob = blob ∨
        ∃ buf : AudioBuffer, removeSilence s d blob = encodeWAV buf) ∧
    (∀ (s : SilenceSettings) (d : DecodeResult) (blob : List ℕ),
      s.useSilenceRemoval = false → removeSilence s d blob = blob) ∧
    (∀ (s : SilenceSettings) (blob : List ℕ),
      removeSilence s .fail blob = blob) := by
  refine ⟨?_, ?_, ?_⟩
  · intro s d blob
    unfold removeSilence
    dsimp only
    repeat' split
    all_goals first
      | exact Or.inl rfl
      | exact Or.inr ⟨_, rfl⟩
  · intro s d blob h
    unfold removeSilence
    rw [if_pos (by simp [h])]
  · intro s blob
    unfold removeSilence
    dsimp only
    repeat' split
    all_goals rfl

theorem removeSilence_total_or_original_witness :
    removeSilence ⟨false, true, 2, 0⟩ (.ok ⟨1, 1, 2, [[0]]⟩) [9] = [9] :=
  removeSilence_total_or_original.2.1 ⟨false, true, 2, 0⟩ (.ok ⟨1, 1, 2, [[0]]⟩) [9] rfl

/-- C3 (counterexample): a nonempty all-silent buffer (one zero sample,
sample rate 2, threshold 0) in all-segments mode is NOT returned
unmodified: the result is a freshly encoded WAV of
`floor(0.5 * sampleRate)` zero samples, not the original clip. -/
theorem removeSilence_allSilent_not_original :
    (∀ i, i < (1 : ℕ) →
      |((AudioBuffer.mk 1 1 2 [[0]]).getChannelData 0).getD i 0| ≤ (0 : ℚ)) ∧
    removeSilence ⟨true, true, 2, 0⟩ (.ok ⟨1, 1, 2, [[0]]⟩) [1, 2, 3] ≠ [1, 2, 3] := by
  constructor
  · decide
  · decide

/-- C3 (amended): an empty decoded buffer is returned unmodified in
both modes, and an all-below-threshold buffer is returned unmodified in
edges-only mode; but in all-segments mode a nonempty all-below-threshold
buffer (with `sampleRate / 2 > 0`) is re-encoded as a WAV containing
`floor(0.5 * sampleRate)` zero samples per channel instead. -/
theorem removeSilence_degenerate_cases :
    (∀ (s : SilenceSettings) (buf : AudioBuffer) (blob : List ℕ),
      s.silenceRemoveAll = false →
      (∀ i, i < buf.length →
        |(buf.getChannelData 0).getD i 0| ≤ s.thresholdLinear) →
      removeSilence s (.ok buf) blob = blob) ∧
    (∀ (s : SilenceSettings) (buf : AudioBuffer) (blob : List ℕ),
      buf.getChannelData 0 = [] → buf.length = 0 →
      removeSilence s (.ok buf) blob = blob) ∧
    (∀ (s : SilenceSettings) (buf : AudioBuffer) (blob : List ℕ),
      s.useSilenceRemoval = true → s.silenceRemoveAll = true →
      (∀ v ∈ buf.getChannelData 0, |v| ≤ s.thresholdLinear) →
      buf.getChannelData 0 ≠ [] → buf.sampleRate / 2 ≠ 0 →
      removeSilence s (.ok buf) blob =
        encodeWAV
          { numberOfChannels := buf.numberOfChannels
            length := buf.sampleRate / 2
            sampleRate := buf.sampleRate
            channels := (List.range buf.numberOfChannels).map
              (fun _ => List.replicate (buf.sampleRate / 2) 0) }) := by
  refine ⟨?_, ?_, ?_⟩
  · intro s buf blob hmode hbelow
    unfold removeSilence
    by_cases hu : s.useSilenceRemoval = true
    · rw [if_neg (by simp [hu])]
      dsimp only
      rw [if_neg (by simp [hmode])]
      have hstart : startScan (buf.getChannelData 0) s.thresholdLinear buf.length =
          buf.length := by
        unfold startScan
        have := startScanAux_all_below (buf.getChannelData 0) s.thresholdLinear
          buf.length 0 (fun j hj1 hj2 => hbelow j (by omega))
        rw [this]
        omega
      rw [hstart]
      by_cases hlen : buf.length = 0
      · unfold endScan
        rw [if_pos hlen]
        rw [if_pos (by omega)]
      · unfold endScan
        rw [if_neg hlen]
        rw [endScanAux_le_start _ _ _ _ (by omega)]
        rw [if_pos (by omega)]
    · rw [if_pos (by simp [hu])]
  · intro s buf blob hch hlen
    unfold removeSilence
    by_cases hu : s.useSilenceRemoval = true
    · rw [if_neg (by simp [hu])]
      dsimp only
      rw [hch, hlen]
      by_cases hmode : s.silenceRemoveAll = true
      · rw [if_pos hmode]
        have hseg : findAllSegments [] s.thresholdLinear
            (s.silenceDuration * (buf.sampleRate : ℚ)) = [] := rfl
        rw [hseg]
        simp
      · rw [if_neg hmode]
        simp [startScan, startScanAux, endScan]
    · rw [if_pos (by simp [hu])]
  · intro s buf blob hu hmode hbelow hne hsr
    unfold removeSilence
    rw [if_neg (by simp [hu])]
    dsimp only
    rw [if_pos hmode]
    have hseg : findAllSegments (buf.getChannelData 0) s.thresholdLinear
        (s.silenceDuration * (buf.sampleRate : ℚ)) =
        [⟨0, (buf.getChannelData 0).length, true⟩] := by
      unfold findAllSegments
      rw [scanSegments_all_below _ _ _ _ hbelow]
      unfold finalizeSegments
      rw [if_neg (by simp), if_pos (by simp [List.length_pos.2 hne])]
      rfl
    rw [hseg]
    have htot : ([(⟨0, (buf.getChannelData 0).length, true⟩ : Segment)].foldl
        (fun sum seg =>
          sum + if seg.isSilence then buf.sampleRate / 2 else seg.stop - seg.start) 0) =
        buf.sampleRate / 2 := by
      simp [List.foldl]
    rw [htot, if_neg hsr]
    have hchans : (List.range buf.numberOfChannels).map
        (fun ch => reconstructChannel (buf.getChannelData ch) (buf.sampleRate / 2)
          (buf.sampleRate / 2)
          [⟨0, (buf.getChannelData 0).length, true⟩]) =
        (List.range buf.numberOfChannels).map
          (fun _ => List.replicate (buf.sampleRate / 2) 0) :=
      List.map_congr_left (fun ch _ => rfl)
    rw [hchans]

theorem removeSilence_degenerate_cases_witness :
    removeSilence ⟨true, true, 2, 0⟩ (.ok ⟨1, 1, 2, [[0]]⟩) [1, 2, 3] =
      encodeWAV
        { numberOfChannels := 1
          length := 2 / 2
          sampleRate := 2
          channels := (List.range 1).map (fun _ => List.replicate (2 / 2) 0) } :=
  removeSilence_degenerate_cases.2.2 ⟨true, true, 2, 0⟩ ⟨1, 1, 2, [[0]]⟩ [1, 2, 3]
    rfl rfl (by decide) (by decide) (by decide)

/-! ### WAV layout refinement (C4) -/

theorem set_append_of_lt {α : Type} :
    ∀ (X : List α) (Y : List α) (n : ℕ) (a : α), n < X.length →
      (X ++ Y).set n a = X.set n a ++ Y
  | [], _, n, _, h => by simp at h
  | x :: X, Y, 0, a, _ => rfl
  | x :: X, Y, n + 1, a, h => by
      simp only [List.cons_append, List.set_cons_succ]
      rw [set_append_of_lt X Y n a (by simpa using h)]

theorem set_at_append {α : Type} :
    ∀ (X : List α) (a : α) (rest : List α) (v : α),
      (X ++ a :: rest).set X.length v = X ++ v :: rest
  | [], _, _, _ => rfl
  | x :: X, a, rest, v => by
      simp only [List.cons_append, List.length_cons, List.set_cons_succ]
      rw [set_at_append X a rest v]

theorem setU8_append (A B : List ℕ) (o v : ℕ) (h : o < A.length) :
    setU8 (A ++ B) o v = setU8 A o v ++ B :=
  set_append_of_lt A B o _ h

theorem setU8_length (A : List ℕ) (o v : ℕ) : (setU8 A o v).length = A.length :=
  List.length_set A o _

theorem setU16_append (A B : List ℕ) (o v : ℕ) (h : o + 1 < A.length) :
    setU16 (A ++ B) o v = setU16 A o v ++ B := by
  unfold setU16
  rw [set_append_of_lt A B o _ (by omega),
    set_append_of_lt _ B (o + 1) _ (by simp [List.length_set]; omega)]

theorem setU16_length (A : List ℕ) (o v : ℕ) : (setU16 A o v).length = A.length := by
  unfold setU16
  simp [List.length_set]

theorem setU32_append (A B : List ℕ) (o v : ℕ) (h : o + 3 < A.length) :
    setU32 (A ++ B) o v = setU32 A o v ++ B := by
  unfold setU32
  rw [set_append_of_lt A B o _ (by omega),
    set_append_of_lt _ B (o + 1) _ (by simp [List.length_set]; omega),
    set_append_of_lt _ B (o + 2) _ (by simp [List.length_set]; omega),
    set_append_of_lt _ B (o + 3) _ (by simp [List.length_set]; omega)]

theorem setU32_length (A : List ℕ) (o v : ℕ) : (setU32 A o v).length = A.length := by
  unfold setU32
  simp [List.length_set]

theorem writeStringAt_append :
    ∀ (cs : List Char) (A B : List ℕ) (o : ℕ), o + cs.length ≤ A.length →
      writeStringAt (A ++ B) o cs = writeStringAt A o cs ++ B
  | [], _, _, _, _ => rfl
  | c :: cs, A, B, o, h => by
      unfold writeStringAt
      rw [setU8_append A B o _ (by simp at h; omega)]
      exact writeStringAt_append cs _ B (o + 1)
        (by simp [setU8_length]; simp at h; omega)

theorem writeStringAt_length :
    ∀ (cs : List Char) (A : List ℕ) (o : ℕ),
      (writeStringAt A o cs).length = A.length
  | [], _, _ => rfl
  | c :: cs, A, o => by
      unfold writeStringAt
      rw [writeStringAt_length cs _ (o + 1), setU8_length]

theorem setU16_boundary (X : List ℕ) (a b : ℕ) (Z : List ℕ) (v : ℕ) :
    setU16 (X ++ a :: b :: Z) X.length v = X ++ (v % 256) :: (v / 256 % 256) :: Z := by
  unfold setU16
  rw [set_at_append X a (b :: Z) (v % 256)]
  have h1 : X ++ (v % 256) :: b :: Z = (X ++ [v % 256]) ++ b :: Z := by simp
  have h2 : X.length + 1 = (X ++ [v % 256]).length := by simp
  rw [h1, h2, set_at_append (X ++ [v % 256]) b Z (v / 256 % 256)]
  simp

theorem flatten_map_length_two {α : Type} (f : α → List ℕ)
    (hf : ∀ x, (f x).length = 2) :
    ∀ l : List α, ((l.map f).flatten).length = 2 * l.length
  | [] => rfl
  | x :: l => by
      simp only [List.map_cons, List.flatten_cons, List.length_append, hf x,
        List.length_cons, flatten_map_length_two f hf l]
      ring

theorem sampleBytesLE_length (q : ℚ) : (sampleBytesLE q).length = 2 := rfl

/-- The inner (channel) loop of the PCM writer, characterized: starting
at the end of a prefix `P` with `2 * m` zero bytes ahead, it writes the
`m` interleaved channel samples of frame `i`. -/
theorem chFold_spec (chans : List (List ℚ)) (i : ℕ) :
    ∀ (m : ℕ) (P Z : List ℕ),
      ((List.range m).foldl
        (fun acc2 ch =>
          (setI16 acc2.1 acc2.2 (scaleSample (clamp16 ((chans.getD ch []).getD i 0))),
            acc2.2 + 2))
        (P ++ (List.replicate (2 * m) 0 ++ Z), P.length)) =
      (P ++ (((List.range m).map
          (fun ch => sampleBytesLE ((chans.getD ch []).getD i 0))).flatten ++ Z),
        P.length + 2 * m) := by
  intro m
  induction m with
  | zero => intro P Z; simp
  | succ m ih =>
      intro P Z
      rw [List.range_succ, List.foldl_append]
      have hrep : List.replicate (2 * (m + 1)) (0 : ℕ) ++ Z =
          List.replicate (2 * m) 0 ++ ((0 : ℕ) :: 0 :: Z) := by
        have : 2 * (m + 1) = 2 * m + 2 := by ring
        rw [this, List.replicate_add]
        simp
      rw [hrep, ih P ((0 : ℕ) :: 0 :: Z)]
      simp only [List.foldl_cons, List.foldl_nil]
      have hlen : P.length + 2 * m =
          (P ++ ((List.range m).map
            (fun ch => sampleBytesLE ((chans.getD ch []).getD i 0))).flatten).length := by
        simp [flatten_map_length_two _ (fun x => sampleBytesLE_length _)]
      unfold setI16
      rw [show P ++ (((List.range m).map
            (fun ch => sampleBytesLE ((chans.getD ch []).getD i 0))).flatten ++
            ((0 : ℕ) :: 0 :: Z)) =
          (P ++ ((List.range m).map
            (fun ch => sampleBytesLE ((chans.getD ch []).getD i 0))).flatten) ++
            ((0 : ℕ) :: 0 :: Z) from by simp,
        hlen, setU16_boundary]
      rw [Prod.mk.injEq]
      constructor
      · simp [sampleBytesLE, u16le]
      · rw [← hlen]
        ring

theorem wavSpecData_length (chans : List (List ℚ)) (numCh : ℕ) :
    ∀ frames : ℕ, (wavSpecData chans numCh frames).length = 2 * numCh * frames := by
  intro frames
  unfold wavSpecData
  induction frames with
  | zero => rfl
  | succ n ih =>
      rw [List.range_succ, List.map_append, List.flatten_append]
      simp only [List.length_append, ih, List.map_cons, List.map_nil,
        List.flatten_cons, List.flatten_nil, List.append_nil]
      rw [flatten_map_length_two _ (fun x => sampleBytesLE_length _)]
      simp [List.length_range]
      ring

/-- The outer (frame) loop of the PCM writer, characterized. -/
theorem framesFold_spec (chans : List (List ℚ)) (numCh : ℕ) :
    ∀ (n : ℕ) (hdr Z : List ℕ), hdr.length = 44 →
      ((List.range n).foldl
        (fun acc i =>
          (List.range numCh).foldl
            (fun acc2 ch =>
              (setI16 acc2.1 acc2.2
                (scaleSample (clamp16 ((chans.getD ch []).getD i 0))), acc2.2 + 2))
            acc)
        (hdr ++ (List.replicate (2 * numCh * n) 0 ++ Z), 44)) =
      (hdr ++ (wavSpecData chans numCh n ++ Z), 44 + 2 * numCh * n) := by
  intro n
  induction n with
  | zero =>
      intro hdr Z h
      simp [wavSpecData]
  | succ n ih =>
      intro hdr Z h
      rw [List.range_succ, List.foldl_append]
      have hrep : List.replicate (2 * numCh * (n + 1)) (0 : ℕ) ++ Z =
          List.replicate (2 * numCh * n) 0 ++
            (List.replicate (2 * numCh) 0 ++ Z) := by
        have : 2 * numCh * (n + 1) = 2 * numCh * n + 2 * numCh := by ring
        rw [this, List.replicate_add, List.append_assoc]
      rw [hrep, ih hdr (List.replicate (2 * numCh) 0 ++ Z) h]
      simp only [List.foldl_cons, List.foldl_nil]
      have hassoc : hdr ++ (wavSpecData chans numCh n ++
          (List.replicate (2 * numCh) 0 ++ Z)) =
          (hdr ++ wavSpecData chans numCh n) ++
            (List.replicate (2 * numCh) 0 ++ Z) := by
        simp
      have hoff : 44 + 2 * numCh * n =
          (hdr ++ wavSpecData chans numCh n).length := by
        simp [h, wavSpecData_length]
      rw [hassoc, hoff, chFold_spec chans n numCh
        (hdr ++ wavSpecData chans numCh n) Z]
      rw [Prod.mk.injEq]
      constructor
      · have : wavSpecData chans numCh (n + 1) =
            wavSpecData chans numCh n ++
              ((List.range numCh).map
                (fun ch => sampleBytesLE ((chans.getD ch []).getD n 0))).flatten := by
          unfold wavSpecData
          rw [List.range_succ, List.map_append, List.flatten_append]
          simp
        rw [this]
        simp
      · rw [← hoff]
        ring

theorem set_at_append_len {α : Type} (X : List α) (a : α) (rest : List α) (v : α)
    (n : ℕ) (h : n = X.length) :
    (X ++ a :: rest).set n v = X ++ v :: rest := by
  subst h
  exact set_at_append X a rest v

theorem setU16_bd (X : List ℕ) (a b : ℕ) (Z : List ℕ) (v n : ℕ)
    (h : n = X.length) :
    setU16 (X ++ a :: b :: Z) n v =
      (X ++ [v % 256, v / 256 % 256]) ++ Z := by
  subst h
  rw [setU16_boundary]
  simp

theorem setU32_bd (X : List ℕ) (a b c d : ℕ) (Z : List ℕ) (v n : ℕ)
    (h : n = X.length) :
    setU32 (X ++ a :: b :: c :: d :: Z) n v =
      (X ++ [v % 256, v / 256 % 256, v / 65536 % 256, v / 16777216 % 256]) ++ Z := by
  subst h
  unfold setU32
  rw [set_at_append_len X a _ _ _ rfl]
  rw [show X ++ (v % 256) :: b :: c :: d :: Z =
      (X ++ [v % 256]) ++ b :: c :: d :: Z from by simp]
  rw [set_at_append_len _ b _ _ _ (by simp)]
  rw [show (X ++ [v % 256]) ++ (v / 256 % 256) :: c :: d :: Z =
      (X ++ [v % 256, v / 256 % 256]) ++ c :: d :: Z from by simp]
  rw [set_at_append_len _ c _ _ _ (by simp)]
  rw [show (X ++ [v % 256, v / 256 % 256]) ++ (v / 65536 % 256) :: d :: Z =
      (X ++ [v % 256, v / 256 % 256, v / 65536 % 256]) ++ d :: Z from by simp]
  rw [set_at_append_len _ d _ _ _ (by simp)]
  simp

theorem writeStr4_bd (X : List ℕ) (a b c d : ℕ) (Z : List ℕ)
    (c1 c2 c3 c4 : Char) (n : ℕ) (h : n = X.length) :
    writeStringAt (X ++ a :: b :: c :: d :: Z) n [c1, c2, c3, c4] =
      (X ++ [c1.toNat % 256, c2.toNat % 256, c3.toNat % 256, c4.toNat % 256]) ++ Z := by
  subst h
  simp only [writeStringAt, setU8]
  rw [set_at_append_len X a _ _ _ rfl]
  rw [show X ++ (c1.toNat % 256) :: b :: c :: d :: Z =
      (X ++ [c1.toNat % 256]) ++ b :: c :: d :: Z from by simp]
  rw [set_at_append_len _ b _ _ _ (by simp)]
  rw [show (X ++ [c1.toNat % 256]) ++ (c2.toNat % 256) :: c :: d :: Z =
      (X ++ [c1.toNat % 256, c2.toNat % 256]) ++ c :: d :: Z from by simp]
  rw [set_at_append_len _ c _ _ _ (by simp)]
  rw [show (X ++ [c1.toNat % 256, c2.toNat % 256]) ++ (c3.toNat % 256) :: d :: Z =
      (X ++ [c1.toNat % 256, c2.toNat % 256, c3.toNat % 256]) ++ d :: Z from by simp]
  rw [set_at_append_len _ d _ _ _ (by simp)]
  simp

theorem writeStr4_nil (a b c d : ℕ) (Z : List ℕ) (c1 c2 c3 c4 : Char) :
    writeStringAt (a :: b :: c :: d :: Z) 0 [c1, c2, c3, c4] =
      [c1.toNat % 256, c2.toNat % 256, c3.toNat % 256, c4.toNat % 256] ++ Z := by
  have h := writeStr4_bd [] a b c d Z c1 c2 c3 c4 0 rfl
  simpa using h

/-- C4 helper: the WAV write sequence equals the spec layout. -/
theorem encodeWAV_eq_wavSpecBytes (b : AudioBuffer) :
    encodeWAV b = wavSpecBytes b := by
  unfold encodeWAV wavSpecBytes
  dsimp only
  have hbr : b.sampleRate * b.numberOfChannels * 16 / 8 =
      b.sampleRate * b.numberOfChannels * 2 := by
    have h : b.sampleRate * b.numberOfChannels * 16 =
        (b.sampleRate * b.numberOfChannels * 2) * 8 := by ring
    rw [h, Nat.mul_div_cancel _ (by norm_num)]
  have hba : b.numberOfChannels * 16 / 8 = b.numberOfChannels * 2 := by
    have h : b.numberOfChannels * 16 = (b.numberOfChannels * 2) * 8 := by ring
    rw [h, Nat.mul_div_cancel _ (by norm_num)]
  rw [hbr, hba]
  rw [show "RIFF".toList = ['R', 'I', 'F', 'F'] from by decide]
  rw [show "WAVE".toList = ['W', 'A', 'V', 'E'] from by decide]
  rw [show "fmt ".toList = ['f', 'm', 't', ' '] from by decide]
  rw [show "data".toList = ['d', 'a', 't', 'a'] from by decide]
  rw [List.replicate_add]
  rw [show List.replicate 44 (0:ℕ) ++ List.replicate (b.length * b.numberOfChannels * 2) 0 =
      (0:ℕ)::0::0::0::(List.replicate 40 0 ++ List.replicate (b.length * b.numberOfChannels * 2) 0) from by
    rw [show List.replicate 44 (0:ℕ) = (0:ℕ)::0::0::0::List.replicate 40 0 from by decide]
    simp]
  rw [writeStr4_nil]
  rw [show List.replicate 40 (0:ℕ) ++ List.replicate (b.length * b.numberOfChannels * 2) 0 =
      (0:ℕ)::0::0::0::(List.replicate 36 0 ++ List.replicate (b.length * b.numberOfChannels * 2) 0) from by
    rw [show List.replicate 40 (0:ℕ) = (0:ℕ)::0::0::0::List.replicate 36 0 from by decide]
    simp]
  rw [setU32_bd _ _ _ _ _ _ _ _ (by simp)]
  rw [show List.replicate 36 (0:ℕ) ++ List.replicate (b.length * b.numberOfChannels * 2) 0 =
      (0:ℕ)::0::0::0::(List.replicate 32 0 ++ List.replicate (b.length * b.numberOfChannels * 2) 0) from by
    rw [show List.replicate 36 (0:ℕ) = (0:ℕ)::0::0::0::List.replicate 32 0 from by decide]
    simp]
  rw [writeStr4_bd _ _ _ _ _ _ _ _ _ _ _ (by simp)]
  rw [show List.replicate 32 (0:ℕ) ++ List.replicate (b.length * b.numberOfChannels * 2) 0 =
      (0:ℕ)::0::0::0::(List.replicate 28 0 ++ List.replicate (b.length * b.numberOfChannels * 2) 0) from by
    rw [show List.replicate 32 (0:ℕ) = (0:ℕ)::0::0::0::List.replicate 28 0 from by decide]
    simp]
  rw [writeStr4_bd _ _ _ _ _ _ _ _ _ _ _ (by simp)]
  rw [show List.replicate 28 (0:ℕ) ++ List.replicate (b.length * b.numberOfChannels * 2) 0 =
      (0:ℕ)::0::0::0::(List.replicate 24 0 ++ List.replicate (b.length * b.numberOfChannels * 2) 0) from by
    rw [show List.replicate 28 (0:ℕ) = (0:ℕ)::0::0::0::List.replicate 24 0 from by decide]
    simp]
  rw [setU32_bd _ _ _ _ _ _ _ _ (by simp)]
  rw [show List.replicate 24 (0:ℕ) ++ List.replicate (b.length * b.numberOfChannels * 2) 0 =
      (0:ℕ)::0::(List.replicate 22 0 ++ List.replicate (b.length * b.numberOfChannels * 2) 0) from by
    rw [show List.replicate 24 (0:ℕ) = (0:ℕ)::0::List.replicate 22 0 from by decide]
    simp]
  rw [setU16_bd _ _ _ _ _ _ (by simp)]
  rw [show List.replicate 22 (0:ℕ) ++ List.replicate (b.length * b.numberOfChannels * 2) 0 =
      (0:ℕ)::0::(List.replicate 20 0 ++ List.replicate (b.length * b.numberOfChannels * 2) 0) from by
    rw [show List.replicate 22 (0:ℕ) = (0:ℕ)::0::List.replicate 20 0 from by decide]
    simp]
  rw [setU16_bd _ _ _ _ _ _ (by simp)]
  rw [show List.replicate 20 (0:ℕ) ++ List.replicate (b.length * b.numberOfChannels * 2) 0 =
      (0:ℕ)::0::0::0::(List.replicate 16 0 ++ List.replicate (b.length * b.numberOfChannels * 2) 0) from by
    rw [show List.replicate 20 (0:ℕ) = (0:ℕ)::0::0::0::List.replicate 16 0 from by decide]
    simp]
  rw [setU32_bd _ _ _ _ _ _ _ _ (by simp)]
  rw [show List.replicate 16 (0:ℕ) ++ List.replicate (b.length * b.numberOfChannels * 2) 0 =
      (0:ℕ)::0::0::0::(List.replicate 12 0 ++ List.replicate (b.length * b.numberOfChannels * 2) 0) from by
    rw [show List.replicate 16 (0:ℕ) = (0:ℕ)::0::0::0::List.replicate 12 0 from by decide]
    simp]
  rw [setU32_bd _ _ _ _ _ _ _ _ (by simp)]
  rw [show List.replicate 12 (0:ℕ) ++ List.replicate (b.length * b.numberOfChannels * 2) 0 =
      (0:ℕ)::0::(List.replicate 10 0 ++ List.replicate (b.length * b.numberOfChannels * 2) 0) from by
    rw [show List.replicate 12 (0:ℕ) = (0:ℕ)::0::List.replicate 10 0 from by decide]
    simp]
  rw [setU16_bd _ _ _ _ _ _ (by simp)]
  rw [show List.replicate 10 (0:ℕ) ++ List.replicate (b.length * b.numberOfChannels * 2) 0 =
      (0:ℕ)::0::(List.replicate 8 0 ++ List.replicate (b.length * b.numberOfChannels * 2) 0) from by
    rw [show List.replicate 10 (0:ℕ) = (0:ℕ)::0::List.replicate 8 0 from by decide]
    simp]
  rw [setU16_bd _ _ _ _ _ _ (by simp)]
  rw [show List.replicate 8 (0:ℕ) ++ List.replicate (b.length * b.numberOfChannels * 2) 0 =
      (0:ℕ)::0::0::0::(List.replicate 4 0 ++ List.replicate (b.length * b.numberOfChannels * 2) 0) from by
    rw [show List.replicate 8 (0:ℕ) = (0:ℕ)::0::0::0::List.replicate 4 0 from by decide]
    simp]
  rw [writeStr4_bd _ _ _ _ _ _ _ _ _ _ _ (by simp)]
  rw [show List.replicate 4 (0:ℕ) ++ List.replicate (b.length * b.numberOfChannels * 2) 0 =
      (0:ℕ)::0::0::0::(List.replicate (b.length * b.numberOfChannels * 2) 0) from by
    rw [show List.replicate 4 (0:ℕ) = (0:ℕ)::0::0::0::List.replicate 0 0 from by decide]
    simp]
  rw [setU32_bd _ _ _ _ _ _ _ _ (by simp)]
  rw [show List.replicate (b.length * b.numberOfChannels * 2) (0:ℕ) =
      List.replicate (2 * b.numberOfChannels * b.length) 0 ++ ([] : List ℕ) from by
    rw [show b.length * b.numberOfChannels * 2 = 2 * b.numberOfChannels * b.length
      from by ring]
    simp]
  unfold writePCM
  rw [framesFold_spec _ _ _ _ _ (by simp)]
  dsimp only
  rw [List.append_nil]
  rw [show (['R'.toNat % 256, 'I'.toNat % 256, 'F'.toNat % 256, 'F'.toNat % 256] :
      List ℕ) = [82, 73, 70, 70] from by decide]
  rw [show (List.map Char.toNat ['R', 'I', 'F', 'F'] : List ℕ) = [82, 73, 70, 70]
    from by decide]
  rw [show (['W'.toNat % 256, 'A'.toNat % 256, 'V'.toNat % 256, 'E'.toNat % 256] :
      List ℕ) = [87, 65, 86, 69] from by decide]
  rw [show (List.map Char.toNat ['W', 'A', 'V', 'E'] : List ℕ) = [87, 65, 86, 69]
    from by decide]
  rw [show (['f'.toNat % 256, 'm'.toNat % 256, 't'.toNat % 256, ' '.toNat % 256] :
      List ℕ) = [102, 109, 116, 32] from by decide]
  rw [show (List.map Char.toNat ['f', 'm', 't', ' '] : List ℕ) = [102, 109, 116, 32]
    from by decide]
  rw [show (['d'.toNat % 256, 'a'.toNat % 256, 't'.toNat % 256, 'a'.toNat % 256] :
      List ℕ) = [100, 97, 116, 97] from by decide]
  rw [show (List.map Char.toNat ['d', 'a', 't', 'a'] : List ℕ) = [100, 97, 116, 97]
    from by decide]
  simp only [u32le, u16le]

/-- C4: for every buffer, `encodeWAV` emits exactly the 44-byte
RIFF/WAVE header (RIFF size `36 + dataLen`, PCM format code 1, the
input's channel count and sample rate, byte rate
`sampleRate*channels*2`, block align `channels*2`, 16 bits per sample,
data length `frames*channels*2`) followed by the interleaved
little-endian 16-bit samples under the asymmetric clamp/scale rule; in
particular the mono 16000 Hz buffer `[0.5, -0.5, 1.0, -1.0]` encodes to
52 bytes whose data section is `16383, -16384, 32767, -32768`. -/
theorem encodeWAV_layout :
    (∀ b : AudioBuffer, encodeWAV b = wavSpecBytes b) ∧
    encodeWAV ⟨1, 4, 16000, [[1/2, -1/2, 1, -1]]⟩ =
      [82, 73, 70, 70, 44, 0, 0, 0, 87, 65, 86, 69, 102, 109, 116, 32,
        16, 0, 0, 0, 1, 0, 1, 0] ++
      [128, 62, 0, 0, 0, 125, 0, 0, 2, 0, 16, 0, 100, 97, 116, 97,
        8, 0, 0, 0] ++
      [255, 63, 0, 192, 255, 127, 0, 128] ∧
    (encodeWAV ⟨1, 4, 16000, [[1/2, -1/2, 1, -1]]⟩).length = 52 :=
  ⟨encodeWAV_eq_wavSpecBytes,
    by rw [encodeWAV_eq_wavSpecBytes]; decide,
    by rw [encodeWAV_eq_wavSpecBytes]; decide⟩

end Whisper
